import Mathlib

/-!
Verification of the content-item model of `peteresnyder/items.py`: value
records, per-variant item construction from JSON, file-reference validation,
and HTML rendering through an indentation-tracked output buffer.
-/

namespace Snyderp

/-- The single-quote character (U+0027), used when building HTML attribute
strings such as `class=...`. -/
def sq : String := String.singleton (Char.ofNat 39)

/-- Failure taxonomy of the construction/validation pipeline: Python
`KeyError`, `ValueError`/`BaseException` with a message, `TypeError`,
`IndexError`, and `FileNotFoundError`. -/
inductive Err where
  | keyError : String → Err
  | valueError : String → Err
  | typeError : String → Err
  | indexError : String → Err
  | fileNotFound : String → Err
deriving DecidableEq, Repr

/-- One character of Python `html.escape` (with its default `quote=True`):
`&`, `<`, `>`, `"` and the single quote are replaced by entities. -/
def escapeChar (c : Char) : List Char :=
  if c = '&' then "&amp;".data
  else if c = '<' then "&lt;".data
  else if c = '>' then "&gt;".data
  else if c = '"' then "&quot;".data
  else if c = Char.ofNat 39 then "&#x27;".data
  else [c]

/-- `html.escape` over a character list. -/
def escapeList : List Char → List Char
  | [] => []
  | c :: cs => escapeChar c ++ escapeList cs

/-- `html.escape` (the escaping primitive used by `items.py`). -/
def escape (s : String) : String := String.mk (escapeList s.data)

/-- A character list free of `<` and `>`: inserting it into markup cannot
open or close an element tag. -/
def noAngleL (cs : List Char) : Prop := ∀ c ∈ cs, c ≠ '<' ∧ c ≠ '>'

instance (cs : List Char) : Decidable (noAngleL cs) := by
  unfold noAngleL; infer_instance

/-- A string free of `<` and `>`. -/
def noAngle (s : String) : Prop := noAngleL s.data

instance (s : String) : Decidable (noAngle s) := by
  unfold noAngle; infer_instance

/-- An HTML tag event: an opening tag or a closing tag, by element name. -/
inductive HTag where
  | open_ : String → HTag
  | close : String → HTag
deriving DecidableEq, Repr

/-- The element name of a tag body: the characters before the first space. -/
def tagName (cs : List Char) : String := String.mk (cs.takeWhile (fun c => c != ' '))

/-- Classify a tag body (the characters between `<` and `>`). -/
def parseTag (cs : List Char) : HTag :=
  match cs with
  | [] => HTag.open_ ""
  | c :: rest => if c = '/' then HTag.close (tagName rest) else HTag.open_ (tagName cs)

/-- Scan characters for tag events.  The state is `none` outside a tag and
`some acc` inside one (`acc` holds the tag body read so far, reversed);
returns the emitted tag events and the final state. -/
def scanEmit : Option (List Char) → List Char → List HTag × Option (List Char)
  | st, [] => ([], st)
  | none, c :: cs => if c = '<' then scanEmit (some []) cs else scanEmit none cs
  | some acc, c :: cs =>
      if c = '>' then
        (parseTag acc.reverse :: (scanEmit none cs).1, (scanEmit none cs).2)
      else scanEmit (some (c :: acc)) cs

/-- Tag events of one output line. -/
def lineTags (s : String) : List HTag := (scanEmit none s.data).1

/-- Run tag events against a stack of open element names; `none` means a
close tag had no matching open. -/
def stepTags : List String → List HTag → Option (List String)
  | stk, [] => some stk
  | stk, HTag.open_ n :: ts => stepTags (n :: stk) ts
  | stk, HTag.close n :: ts =>
      match stk with
      | [] => none
      | m :: stk2 => if n = m then stepTags stk2 ts else none

/-- Tag events that leave every stack of open elements unchanged: the
fragment is self-contained (each open matched by its close, well nested). -/
def PreservesStack (ts : List HTag) : Prop := ∀ stk, stepTags stk ts = some stk

/-- Balanced markup: starting with no open elements, the events run to
completion and leave no element open. -/
def Balanced (ts : List HTag) : Prop := stepTags [] ts = some []

theorem scanEmit_append (a : List Char) :
    ∀ (st : Option (List Char)) (b : List Char),
      scanEmit st (a ++ b)
        = ((scanEmit st a).1 ++ (scanEmit (scanEmit st a).2 b).1,
           (scanEmit (scanEmit st a).2 b).2) := by
  induction a with
  | nil => intro st b; simp [scanEmit]
  | cons c cs ih =>
    intro st b
    match st with
    | none =>
      by_cases h : c = '<' <;> simp [scanEmit, h, ih]
    | some acc =>
      by_cases h : c = '>' <;> simp [scanEmit, h, ih]

theorem scanEmit_noAngle_none {cs : List Char} (h : noAngleL cs) :
    scanEmit none cs = ([], none) := by
  induction cs with
  | nil => rfl
  | cons c cs ih =>
    have hc := h c (by simp)
    have hrest : noAngleL cs := fun x hx => h x (by simp [hx])
    simp [scanEmit, hc.1, ih hrest]

theorem scanEmit_noAngle_some {cs : List Char} (h : noAngleL cs) :
    ∀ acc, scanEmit (some acc) cs = ([], some (cs.reverse ++ acc)) := by
  induction cs with
  | nil => intro acc; rfl
  | cons c cs ih =>
    intro acc
    have hc := h c (by simp)
    have hrest : noAngleL cs := fun x hx => h x (by simp [hx])
    simp [scanEmit, hc.2, ih hrest]

theorem stepTags_append (a : List HTag) :
    ∀ (stk : List String) (b : List HTag),
      stepTags stk (a ++ b) = (stepTags stk a).bind (fun s => stepTags s b) := by
  induction a with
  | nil => intro stk b; simp [stepTags]
  | cons t ts ih =>
    intro stk b
    match t with
    | HTag.open_ n => simp [stepTags, ih]
    | HTag.close n =>
      match stk with
      | [] => simp [stepTags]
      | m :: stk2 =>
        by_cases h : n = m <;> simp [stepTags, h, ih]

theorem preserves_nil : PreservesStack [] := by
  intro stk; rfl

theorem preserves_append {a b : List HTag}
    (ha : PreservesStack a) (hb : PreservesStack b) : PreservesStack (a ++ b) := by
  intro stk
  rw [stepTags_append, ha stk]
  exact hb stk

theorem preserves_wrap {mid : List HTag} (n : String)
    (h : PreservesStack mid) : PreservesStack ([HTag.open_ n] ++ mid ++ [HTag.close n]) := by
  intro stk
  rw [stepTags_append, stepTags_append]
  simp only [stepTags, Option.bind]
  rw [h (n :: stk)]
  simp [stepTags]

theorem preserves_pair (n : String) : PreservesStack [HTag.open_ n, HTag.close n] := by
  have := preserves_wrap n preserves_nil
  simpa using this

theorem preserves_flatten {l : List (List HTag)}
    (h : ∀ x ∈ l, PreservesStack x) : PreservesStack l.flatten := by
  induction l with
  | nil => simpa using preserves_nil
  | cons x xs ih =>
    simp only [List.flatten_cons]
    exact preserves_append (h x (by simp)) (ih (fun y hy => h y (by simp [hy])))

theorem balanced_of_preserves {ts : List HTag} (h : PreservesStack ts) : Balanced ts :=
  h []

theorem noAngleL_append {a b : List Char} (ha : noAngleL a) (hb : noAngleL b) :
    noAngleL (a ++ b) := by
  intro c hc
  rcases List.mem_append.mp hc with h | h
  · exact ha c h
  · exact hb c h

theorem noAngleL_escapeList (cs : List Char) : noAngleL (escapeList cs) := by
  induction cs with
  | nil => intro c hc; simp [escapeList] at hc
  | cons c cs ih =>
    simp only [escapeList]
    refine noAngleL_append ?_ ih
    unfold escapeChar
    split
    · decide
    · split
      · decide
      · split
        · decide
        · split
          · decide
          · split
            · decide
            · rename_i h1 h2 h3 _ _
              intro x hx
              simp at hx
              subst hx
              exact ⟨h2, h3⟩

theorem noAngle_escape (s : String) : noAngle (escape s) :=
  noAngleL_escapeList s.data

/-- Modelled from the spec: the indentation-tracked text buffer collaborator
(`Indenter` from `indent.py`, which is not among the sources) offering
`add(line)`, `up()`, `down()`; it accumulates lines, each recorded with the
indentation level at which it was added. -/
structure Indenter where
  level : Nat
  lines : List (Nat × String)
deriving DecidableEq, Repr

/-- `Indenter.add`: append one line at the current indentation level. -/
def Indenter.add (m : Indenter) (s : String) : Indenter :=
  ⟨m.level, m.lines ++ [(m.level, s)]⟩

/-- `Indenter.up`: push one indentation level. -/
def Indenter.up (m : Indenter) : Indenter := ⟨m.level + 1, m.lines⟩

/-- `Indenter.down`: pop one indentation level. -/
def Indenter.down (m : Indenter) : Indenter := ⟨m.level - 1, m.lines⟩

/-- Add a sequence of lines in order (the `for ... markup.add(...)` loops). -/
def Indenter.addLines (m : Indenter) (ls : List String) : Indenter :=
  ls.foldl Indenter.add m

/-- Modelled from the spec: value record `Author`
(`types.py` is not among the sources): display title plus the `@`-token it
was resolved from, if any.  Its render-to-HTML operation emits the escaped
display title. -/
structure Author where
  title : String
  abbr : Option String := none
deriving DecidableEq, Repr

def Author.to_html (a : Author) : String := escape a.title

/-- Modelled from the spec: an anchor element, the render form of records
that carry a url (`<a ATTRS>TEXT</a>` with the text escaped). -/
def anchorHtml (attrs : String) (txt : String) : String :=
  "<a " ++ attrs ++ ">" ++ escape txt ++ "</a>"

/-- `href=...` attribute text with a raw (unescaped) url value. -/
def hrefAttr (url : String) : String := "href=" ++ sq ++ url ++ sq

/-- Modelled from the spec: value record `Source` (a publishing outlet):
title, optional url, optional abbreviation token. -/
structure Source where
  title : String
  url : Option String := none
  abbr : Option String := none
deriving DecidableEq, Repr

def Source.to_html (s : Source) : String :=
  match s.url with
  | some u => anchorHtml (hrefAttr u) s.title
  | none => escape s.title

/-- Modelled from the spec: value record `Venue` (an event venue):
title and optional url. -/
structure Venue where
  title : String
  url : Option String := none
deriving DecidableEq, Repr

def Venue.to_html (v : Venue) : String :=
  match v.url with
  | some u => anchorHtml (hrefAttr u) v.title
  | none => escape v.title

/-- Modelled from the spec: value record `Link`: a named external
reference, rendered as an anchor. -/
structure Link where
  title : String
  url : String
deriving DecidableEq, Repr

def Link.to_html (l : Link) : String := anchorHtml (hrefAttr l.url) l.title

/-- Modelled from the spec: value record `PubNote`: a free-form annotation
rendered inline with links, escaped. -/
structure PubNote where
  text : String
deriving DecidableEq, Repr

def PubNote.to_html (n : PubNote) : String :=
  "<span " ++ "class=" ++ sq ++ "pub-note" ++ sq ++ ">" ++ escape n.text ++ "</span>"

/-- Modelled from the spec: value record `TalkType`: a talk category label
with an optional style, rendered as an escaped label in a span. -/
structure TalkType where
  label : String
  style : Option String := none
deriving DecidableEq, Repr

def TalkType.to_html (t : TalkType) : String :=
  "<span " ++ "class=" ++ sq ++ "talk-type" ++ sq ++ ">" ++ escape t.label ++ "</span>"

/-- A calendar date-time (the fields `datetime.datetime.fromisoformat`
produces and `strftime` consumes). -/
structure DateTime where
  year : Int
  month : Nat
  day : Nat
  hour : Nat
  minute : Nat
  second : Nat
deriving DecidableEq, Repr

/-- An item date: either a full date-time or a bare integer year (the two
shapes `ListItem.date` takes at runtime). -/
inductive DateVal where
  | dt : DateTime → DateVal
  | yr : Int → DateVal
deriving DecidableEq, Repr

/-- One decimal digit character. -/
def digitChar (n : Nat) : Char :=
  match n with
  | 0 => '0' | 1 => '1' | 2 => '2' | 3 => '3' | 4 => '4'
  | 5 => '5' | 6 => '6' | 7 => '7' | 8 => '8' | _ => '9'

/-- Decimal digits of a natural number (fuelled; fuel `n+1` suffices). -/
def natStrAux : Nat → Nat → List Char
  | 0, _ => []
  | fuel+1, n => if n < 10 then [digitChar n] else natStrAux fuel (n / 10) ++ [digitChar (n % 10)]

/-- Python `str` on a non-negative integer. -/
def natStr (n : Nat) : String := String.mk (natStrAux (n+1) n)

/-- Python `str` on an integer. -/
def intStr (i : Int) : String := if i < 0 then "-" ++ natStr i.natAbs else natStr i.toNat

/-- `strftime` month abbreviation (`%b`). -/
def monthAbbr (m : Nat) : String :=
  match m with
  | 1 => "Jan" | 2 => "Feb" | 3 => "Mar" | 4 => "Apr" | 5 => "May" | 6 => "Jun"
  | 7 => "Jul" | 8 => "Aug" | 9 => "Sep" | 10 => "Oct" | 11 => "Nov" | _ => "Dec"

/-- Two-digit zero-padded field (`%d`, `%m`). -/
def pad2 (n : Nat) : String := if n < 10 then "0" ++ natStr n else natStr n

/-- `strftime("%b %d, %Y")`. -/
def DateTime.strftimeLine (d : DateTime) : String :=
  monthAbbr d.month ++ " " ++ pad2 d.day ++ ", " ++ intStr d.year

/-- `strftime("%Y-%m-%d")`. -/
def DateTime.strftimeValue (d : DateTime) : String :=
  intStr d.year ++ "-" ++ pad2 d.month ++ "-" ++ pad2 d.day

/-- Python truthiness of an optional string (`if self.url:` and
`if self.desc:`): `None` and the empty string are falsy. -/
def optTruthy (o : Option String) : Bool :=
  match o with
  | none => false
  | some s => s != ""

/-- A parsed JSON value (the mapping/sequence shapes the data file
provides). -/
inductive JVal where
  | str : String → JVal
  | num : Int → JVal
  | arr : List JVal → JVal
  | obj : List (String × JVal) → JVal
  | nul : JVal

/-- Association lookup in a JSON object, first binding wins. -/
def assoc (fs : List (String × JVal)) (k : String) : Option JVal :=
  match fs with
  | [] => none
  | (k2, v) :: rest => if k2 = k then some v else assoc rest k

/-- Python `d[k]` on a dict: the value, or a `KeyError`. -/
def jget (v : JVal) (k : String) : Except Err JVal :=
  match v with
  | JVal.obj fs =>
      match assoc fs k with
      | some x => Except.ok x
      | none => Except.error (Err.keyError k)
  | _ => Except.error (Err.typeError k)

/-- Python `k in d`. -/
def jmem (v : JVal) (k : String) : Bool :=
  match v with
  | JVal.obj fs => (assoc fs k).isSome
  | _ => false

/-- Coerce a JSON value to the string it must be. -/
def jstr (v : JVal) : Except Err String :=
  match v with
  | JVal.str s => Except.ok s
  | _ => Except.error (Err.typeError "expected str")

/-- An optional-url field of a lookup-table record: a string, JSON null, or
absent. -/
def joptUrl (v : JVal) : Except Err (Option String) :=
  match v with
  | JVal.obj fs =>
      match assoc fs "url" with
      | some (JVal.str u) => Except.ok (some u)
      | some JVal.nul => Except.ok none
      | some _ => Except.error (Err.typeError "url")
      | none => Except.ok none
  | _ => Except.error (Err.typeError "record")

/-- `authors_from_json`, inner loop: each entry is a literal display name,
or an `@`-token resolved against `all_data["abbrs"]["authors"]`. -/
def authorsGo (all_data : JVal) : List JVal → Except Err (List Author)
  | [] => Except.ok []
  | a :: rest => do
      let au ←
        match a with
        | JVal.str s =>
            match s.data with
            | [] => Except.error (Err.indexError "string index out of range")
            | c :: _ =>
                if c = '@' then do
                  let tbl ← jget all_data "abbrs"
                  let tbl ← jget tbl "authors"
                  let t ← jget tbl s
                  let ts ← jstr t
                  Except.ok (Author.mk ts (some s))
                else
                  Except.ok (Author.mk s none)
        | _ => Except.error (Err.typeError "author")
      let tl ← authorsGo all_data rest
      Except.ok (au :: tl)

/-- `authors_from_json`: absent `authors` key yields the empty list. -/
def authors_from_json (item_data all_data : JVal) : Except Err (List Author) :=
  match item_data with
  | JVal.obj fs =>
      match assoc fs "authors" with
      | none => Except.ok []
      | some (JVal.arr authors_data) => authorsGo all_data authors_data
      | some _ => Except.error (Err.typeError "authors")
  | _ => Except.error (Err.typeError "item")

/-- `source_from_json`: the `source` string is always used as a key into
`all_data["abbrs"]["sources"]` (no literal form). -/
def source_from_json (item_data all_data : JVal) : Except Err Source := do
  let sv ← jget item_data "source"
  let source_abbr ← jstr sv
  let tbl ← jget all_data "abbrs"
  let tbl ← jget tbl "sources"
  let source_data ← jget tbl source_abbr
  let title ← jget source_data "title"
  let title ← jstr title
  let urlv ← jget source_data "url"
  let url ←
    match urlv with
    | JVal.str u => Except.ok (some u)
    | JVal.nul => Except.ok (none : Option String)
    | _ => Except.error (Err.typeError "source url")
  Except.ok (Source.mk title url (some source_abbr))

/-- `year_from_json`: a string must be the sentinel `@now` (which resolves
to the current year, passed here as `nowYear`); an integer passes through
unchanged.  (The Python passes any non-`str` value through; the data file
holds only strings and integers, which are the shapes modelled.) -/
def year_from_json (nowYear : Int) (item_data : JVal) : Except Err Int :=
  match item_data with
  | JVal.str s =>
      if s = "@now" then Except.ok nowYear
      else Except.error (Err.valueError ("Invalid year value in json: " ++ s))
  | JVal.num n => Except.ok n
  | _ => Except.error (Err.typeError "year")

/-- Build a `Venue` from a lookup-table record (`Venue(**record)`). -/
def venueFromRecord (rv : JVal) : Except Err Venue := do
  let title ← jget rv "title"
  let title ← jstr title
  let url ← joptUrl rv
  Except.ok (Venue.mk title url)

/-- `venue_from_json`: an `@`-token resolves via
`all_data["abbrs"]["venues"]`; a literal string becomes the title. -/
def venue_from_json (item_data all_data : JVal) : Except Err Venue := do
  let rv ← jget item_data "venue"
  let raw_venue ← jstr rv
  match raw_venue.data with
  | [] => Except.error (Err.indexError "string index out of range")
  | c :: _ =>
      if c = '@' then do
        let tbl ← jget all_data "abbrs"
        let tbl ← jget tbl "venues"
        let r ← jget tbl raw_venue
        venueFromRecord r
      else
        Except.ok (Venue.mk raw_venue none)

/-- Build a `TalkType` from a lookup-table record (`TalkType(**record)`). -/
def talkTypeFromRecord (r : JVal) : Except Err TalkType := do
  let label ← jget r "label"
  let label ← jstr label
  let style ←
    match r with
    | JVal.obj fs =>
        match assoc fs "style" with
        | some (JVal.str st) => Except.ok (some st)
        | some _ => Except.error (Err.typeError "style")
        | none => Except.ok (none : Option String)
    | _ => Except.error (Err.typeError "type record")
  Except.ok (TalkType.mk label style)

/-- `talk_type_from_json`: an `@`-token resolves via
`all_data["abbrs"]["types"]`; any literal string becomes the label. -/
def talk_type_from_json (item_data all_data : JVal) : Except Err TalkType := do
  let rv ← jget item_data "type"
  let raw_talk_type ← jstr rv
  match raw_talk_type.data with
  | [] => Except.error (Err.indexError "string index out of range")
  | c :: _ =>
      if c = '@' then do
        let tbl ← jget all_data "abbrs"
        let tbl ← jget tbl "types"
        let r ← jget tbl raw_talk_type
        talkTypeFromRecord r
      else
        Except.ok (TalkType.mk raw_talk_type none)

/-- All digits? -/
def allDigits (cs : List Char) : Bool := cs.all (fun c => '0' ≤ c && c ≤ '9')

/-- Numeric value of a digit string. -/
def digitsVal (cs : List Char) : Nat := cs.foldl (fun acc c => acc * 10 + (c.toNat - 48)) 0

/-- Modelled from the spec: `datetime.datetime.fromisoformat` (Python
standard library, not among the sources); accepts an ISO-8601 date
`YYYY-MM-DD`, optionally followed by `THH:MM:SS`, with in-range fields. -/
def fromisoformat (s : String) : Except Err DateTime :=
  let bad : Except Err DateTime :=
    Except.error (Err.valueError ("Invalid isoformat string: " ++ s))
  match s.data with
  | [y1, y2, y3, y4, h1, m1, m2, h2, d1, d2] =>
      if h1 = '-' && h2 = '-' && allDigits [y1, y2, y3, y4] && allDigits [m1, m2]
          && allDigits [d1, d2] then
        let mo := digitsVal [m1, m2]
        let da := digitsVal [d1, d2]
        if 1 ≤ mo && mo ≤ 12 && 1 ≤ da && da ≤ 31 then
          Except.ok ⟨Int.ofNat (digitsVal [y1, y2, y3, y4]), mo, da, 0, 0, 0⟩
        else bad
      else bad
  | [y1, y2, y3, y4, h1, m1, m2, h2, d1, d2, t, hh1, hh2, c1, mi1, mi2, c2, s1, s2] =>
      if h1 = '-' && h2 = '-' && t = 'T' && c1 = ':' && c2 = ':'
          && allDigits [y1, y2, y3, y4] && allDigits [m1, m2] && allDigits [d1, d2]
          && allDigits [hh1, hh2] && allDigits [mi1, mi2] && allDigits [s1, s2] then
        let mo := digitsVal [m1, m2]
        let da := digitsVal [d1, d2]
        let hh := digitsVal [hh1, hh2]
        let mi := digitsVal [mi1, mi2]
        let ss := digitsVal [s1, s2]
        if 1 ≤ mo && mo ≤ 12 && 1 ≤ da && da ≤ 31 && hh ≤ 23 && mi ≤ 59 && ss ≤ 59 then
          Except.ok ⟨Int.ofNat (digitsVal [y1, y2, y3, y4]), mo, da, hh, mi, ss⟩
        else bad
      else bad
  | _ => bad

/-- `date_from_json`: the required `date` field parsed by `fromisoformat`
(a non-string raises a `TypeError`, as in the Python library). -/
def date_from_json (item_data : JVal) : Except Err DateTime := do
  let d ← jget item_data "date"
  match d with
  | JVal.str s => fromisoformat s
  | _ => Except.error (Err.typeError "fromisoformat: argument must be str")

/-- `pub_notes_from_json`: absent `notes` key yields the empty list. -/
def pub_notes_from_json (item_data : JVal) : Except Err (List PubNote) :=
  match item_data with
  | JVal.obj fs =>
      match assoc fs "notes" with
      | none => Except.ok []
      | some (JVal.arr notes) =>
          notes.foldr (fun n acc => do
            let tl ← acc
            match n with
            | JVal.str t => Except.ok (PubNote.mk t :: tl)
            | _ => Except.error (Err.typeError "note")) (Except.ok [])
      | some _ => Except.error (Err.typeError "notes")
  | _ => Except.error (Err.typeError "item")

/-- Insertion into a title-ascending sorted list, after equal titles
(Python `sorted` is stable). -/
def insertLink (x : Link) : List Link → List Link
  | [] => [x]
  | y :: ys => if y.title < x.title then y :: insertLink x ys else x :: y :: ys

/-- `sorted(links, key=lambda x: x.title)`: stable ascending by title. -/
def sortLinks (ls : List Link) : List Link := ls.foldr insertLink []

/-- `links_from_json`: the optional `links` mapping of title→url becomes a
title-sorted list of `Link`; absent yields the empty list. -/
def links_from_json (item_data : JVal) : Except Err (List Link) :=
  match item_data with
  | JVal.obj fs =>
      match assoc fs "links" with
      | none => Except.ok []
      | some (JVal.obj links_data) =>
          (links_data.foldr (fun kv acc => do
            let tl ← acc
            match kv.2 with
            | JVal.str u => Except.ok (Link.mk kv.1 u :: tl)
            | _ => Except.error (Err.typeError "link url")) (Except.ok [])).map sortLinks
      | some _ => Except.error (Err.typeError "links")
  | _ => Except.error (Err.typeError "item")

/-- `BlogItem`: date-time, title, required url, source, authors, optional
description. -/
structure BlogItem where
  date : DateTime
  title : String
  url : String
  source : Source
  authors : List Author
  desc : Option String
deriving DecidableEq, Repr

/-- `PublicationItem`: year, title, optional url, authors, links, venue,
notes. -/
structure PublicationItem where
  date : Int
  title : String
  url : Option String
  authors : List Author
  links : List Link
  venue : Venue
  notes : List PubNote
deriving DecidableEq, Repr

/-- `PressItem`: date-time, title, required url, source, and a `type` tag
validated at construction. -/
structure PressItem where
  date : DateTime
  title : String
  url : String
  source : Source
  type : String
deriving DecidableEq, Repr

/-- `TalksItem`: year, title, talk type, optional url, links, venue,
authors. -/
structure TalksItem where
  date : Int
  title : String
  type : TalkType
  url : Option String
  links : List Link
  venue : Venue
  authors : List Author
deriving DecidableEq, Repr

/-- `WritingItem`: year, title, optional url, links, optional venue,
description, authors. -/
structure WritingItem where
  date : Int
  title : String
  url : Option String
  links : List Link
  venue : Option Venue
  desc : String
  authors : List Author
deriving DecidableEq, Repr

/-- `CodeItem`: year, title, optional url, links, description. -/
structure CodeItem where
  date : Int
  title : String
  url : Option String
  links : List Link
  desc : String
deriving DecidableEq, Repr

/-- `InvolvementItem`: venue, position text, year. -/
structure InvolvementItem where
  venue : Venue
  position : String
  date : Int
deriving DecidableEq, Repr

/-- The closed family of content-item variants (the `BaseItem` subclasses). -/
inductive Item where
  | blog : BlogItem → Item
  | publication : PublicationItem → Item
  | press : PressItem → Item
  | talks : TalksItem → Item
  | writing : WritingItem → Item
  | code : CodeItem → Item
  | involvement : InvolvementItem → Item
deriving DecidableEq, Repr

/-- The runtime value of `item.date` (a date-time or a bare year). -/
def Item.dateVal : Item → DateVal
  | Item.blog b => DateVal.dt b.date
  | Item.publication p => DateVal.yr p.date
  | Item.press p => DateVal.dt p.date
  | Item.talks t => DateVal.yr t.date
  | Item.writing w => DateVal.yr w.date
  | Item.code c => DateVal.yr c.date
  | Item.involvement i => DateVal.yr i.date

/-- `ListItem.title_html`: an anchor when the url is truthy, else a span;
the title is escaped, the url is inserted raw. -/
def title_html (title : String) (url : Option String) : String :=
  match url with
  | some u =>
      if u = "" then
        "<span " ++ "class=" ++ sq ++ "pub-title" ++ sq ++ ">" ++ escape title ++ "</span>"
      else
        "<a " ++ "class=" ++ sq ++ "pub-title" ++ sq ++ " " ++ hrefAttr u ++ ">"
          ++ escape title ++ "</a>"
  | none =>
      "<span " ++ "class=" ++ sq ++ "pub-title" ++ sq ++ ">" ++ escape title ++ "</span>"

/-- `ListItem.date_html`: a `<time>` element from `strftime` for a
date-time, or from `str(year)` for a bare year. -/
def date_html (date : DateVal) : String :=
  match date with
  | DateVal.dt d =>
      "<time datetime=" ++ sq ++ d.strftimeValue ++ sq ++ ">" ++ d.strftimeLine ++ "</time>"
  | DateVal.yr y =>
      "<time datetime=" ++ sq ++ intStr y ++ sq ++ ">" ++ intStr y ++ "</time>"

/-- `add_desc_html`: the description is inserted without escaping. -/
def add_desc_html (desc : String) (markup : Indenter) : Indenter :=
  markup.add ("<span " ++ "class=" ++ sq ++ "description" ++ sq ++ ">" ++ desc ++ "</span>")

/-- The `<li>` line of one author inside an authors list. -/
def authorLi (a : Author) : String := "<li>" ++ a.to_html ++ "</li>"

/-- `add_authors_html`. -/
def add_authors_html (authors : List Author) (markup : Indenter) : Indenter :=
  if authors.length = 0 then markup
  else
    ((((markup.add ("<ol " ++ "class=" ++ sq ++ "authors" ++ sq ++ ">")).up).addLines
      (authors.map authorLi)).down).add "</ol>"

/-- `add_coauthors_html`: authors other than `@me`, under a
"Written with:" heading. -/
def add_coauthors_html (authors : List Author) (markup : Indenter) : Indenter :=
  let non_me_authors := authors.filter (fun a => a.abbr != some "@me")
  if non_me_authors.length = 0 then markup
  else
    ((((((markup.add ("<div " ++ "class=" ++ sq ++ "co-authors-sec" ++ sq ++ ">")).up).add
      ("<span " ++ "class=" ++ sq ++ "co-authors-desc" ++ sq ++ ">Written with:</span>")).add
      ("<ol " ++ "class=" ++ sq ++ "authors co-authors" ++ sq ++ ">")).up.addLines
      (non_me_authors.map authorLi)).down.add "</ol>").down.add "</div>"

/-- The one-line rendering of a link pill. -/
def linkLine (l : Link) : String :=
  "<span " ++ "class=" ++ sq ++ "label label-default pub-link" ++ sq ++ ">"
    ++ l.to_html ++ "</span>"

/-- `add_links_html`. -/
def add_links_html (links : List Link) (markup : Indenter) : Indenter :=
  if links.length = 0 then markup
  else
    ((((markup.add ("<span " ++ "class=" ++ sq ++ "pub-links" ++ sq ++ ">")).up).addLines
      (links.map linkLine)).down).add "</span>"

/-- `add_notes_and_links_html`: notes then links, in one `pub-links`
span. -/
def add_notes_and_links_html (notes : List PubNote) (links : List Link)
    (markup : Indenter) : Indenter :=
  if links.length = 0 ∧ notes.length = 0 then markup
  else
    (((((markup.add ("<span " ++ "class=" ++ sq ++ "pub-links" ++ sq ++ ">")).up).addLines
      (notes.map PubNote.to_html)).addLines (links.map linkLine)).down).add "</span>"

/-- The destination argument of `add_dest_html`: a `Source` or a `Venue`. -/
inductive Dest where
  | src : Source → Dest
  | ven : Venue → Dest
deriving DecidableEq, Repr

def Dest.to_html : Dest → String
  | Dest.src s => s.to_html
  | Dest.ven v => v.to_html

/-- `add_dest_html`: destination plus date inside a `venue` span. -/
def add_dest_html (dest : Dest) (date : DateVal) (markup : Indenter) : Indenter :=
  ((((markup.add ("<span " ++ "class=" ++ sq ++ "venue" ++ sq ++ ">")).up).add
    dest.to_html).add (date_html date)).down.add "</span>"

/-- `add_date_html`: just the date inside a `venue` span. -/
def add_date_html (date : DateVal) (markup : Indenter) : Indenter :=
  (((markup.add ("<span " ++ "class=" ++ sq ++ "venue" ++ sq ++ ">")).up).add
    (date_html date)).down.add "</span>"

/-- `PressItem.ITEM_TYPE_CLASSES`: the fixed enumeration of press types
and their label styles. -/
def ITEM_TYPE_CLASSES : List (String × String) :=
  [("news", "success"), ("podcast", "primary"), ("radio", "warning"), ("video", "info")]

/-- Association lookup in a string table. -/
def assocS (fs : List (String × String)) (k : String) : Option String :=
  match fs with
  | [] => none
  | (k2, v) :: rest => if k2 = k then some v else assocS rest k

/-- `BlogItem.add_html`. -/
def BlogItem.add_html (b : BlogItem) (markup : Indenter) (_prior : Option Item) : Indenter :=
  let m1 := (markup.add "<li>").up
  let m2 := m1.add (title_html b.title (some b.url))
  let m3 := add_coauthors_html b.authors m2
  let m4 := add_dest_html (Dest.src b.source) (DateVal.dt b.date) m3
  let m5 := if optTruthy b.desc then add_desc_html (b.desc.getD "") m4 else m4
  (m5.down).add "</li>"

/-- `PublicationItem.add_html`. -/
def PublicationItem.add_html (p : PublicationItem) (markup : Indenter)
    (_prior : Option Item) : Indenter :=
  let m1 := (markup.add "<li>").up
  let m2 := m1.add (title_html p.title p.url)
  let m3 := add_authors_html p.authors m2
  let m4 := add_dest_html (Dest.ven p.venue) (DateVal.yr p.date) m3
  let m5 := add_notes_and_links_html p.notes p.links m4
  (m5.down).add "</li>"

/-- `PressItem.add_type_markup`: the type tag as a pill (the style class
comes from `ITEM_TYPE_CLASSES`; construction guarantees membership). -/
def PressItem.add_type_markup (p : PressItem) (markup : Indenter) : Indenter :=
  let type_markup := escape p.type
  let type_class := (assocS ITEM_TYPE_CLASSES p.type).getD ""
  let pill := "<span " ++ "class=" ++ sq ++ "label label-" ++ type_class ++ sq ++ ">"
    ++ type_markup ++ "</span>"
  (((markup.add ("<span " ++ "class=" ++ sq ++ "press-type" ++ sq ++ ">")).up).add
    pill).down.add "</span>"

/-- `PressItem.add_html`. -/
def PressItem.add_html (p : PressItem) (markup : Indenter) (_prior : Option Item) : Indenter :=
  let m1 := (markup.add "<li>").up
  let m2 := m1.add (title_html p.title (some p.url))
  let m3 := p.add_type_markup m2
  let m4 := add_dest_html (Dest.src p.source) (DateVal.dt p.date) m3
  (m4.down).add "</li>"

/-- `TalksItem.add_html`. -/
def TalksItem.add_html (t : TalksItem) (markup : Indenter) (_prior : Option Item) : Indenter :=
  let m1 := (markup.add "<li>").up
  let m2 := m1.add (title_html t.title t.url)
  let m3 := if 0 < t.authors.length then add_authors_html t.authors m2 else m2
  let m4 := add_dest_html (Dest.ven t.venue) (DateVal.yr t.date) m3
  let m5 := m4.add t.type.to_html
  let m6 := add_links_html t.links m5
  (m6.down).add "</li>"

/-- `WritingItem.add_html`. -/
def WritingItem.add_html (w : WritingItem) (markup : Indenter)
    (_prior : Option Item) : Indenter :=
  let m1 := (markup.add "<li>").up
  let m2 := m1.add (title_html w.title w.url)
  let m3 := add_authors_html w.authors m2
  let m4 :=
    match w.venue with
    | some v => add_dest_html (Dest.ven v) (DateVal.yr w.date) m3
    | none => add_date_html (DateVal.yr w.date) m3
  let m5 := add_links_html w.links m4
  let m6 := add_desc_html w.desc m5
  (m6.down).add "</li>"

/-- `CodeItem.add_html`. -/
def CodeItem.add_html (c : CodeItem) (markup : Indenter) (_prior : Option Item) : Indenter :=
  let m1 := (markup.add "<li>").up
  let m2 := m1.add (title_html c.title c.url)
  let m3 := add_date_html (DateVal.yr c.date) m2
  let m4 := add_links_html c.links m3
  let m5 := add_desc_html c.desc m4
  (m5.down).add "</li>"

/-- The year-header row lines of the involvement table. -/
def involvementHeaderTh (y : Int) : String :=
  "<th colspan=\"2\" class=\"year active\">" ++ intStr y ++ "</th>"

def involvementTdVenue (v : Venue) : String :=
  "<td class=\"venue\">" ++ v.to_html ++ "</td>"

def involvementTdPosition (pos : String) : String :=
  "<td class=\"position\">" ++ escape pos ++ "</td>"

/-- `InvolvementItem.add_html`: a year-header row when there is no prior
item or the year differs, then the venue/position row. -/
def InvolvementItem.add_html (it : InvolvementItem) (markup : Indenter)
    (prior : Option Item) : Indenter :=
  let needHeader : Bool :=
    match prior with
    | none => true
    | some p => DateVal.yr it.date != p.dateVal
  let m1 :=
    if needHeader then
      (((markup.add "<tr>").up).add (involvementHeaderTh it.date)).down.add "</tr>"
    else markup
  ((((m1.add "<tr>").up).add (involvementTdVenue it.venue)).add
    (involvementTdPosition it.position)).down.add "</tr>"

/-- `BaseItem.add_html` dispatch over the variant family. -/
def Item.add_html : Item → Indenter → Option Item → Indenter
  | Item.blog b, m, p => b.add_html m p
  | Item.publication q, m, p => q.add_html m p
  | Item.press q, m, p => q.add_html m p
  | Item.talks t, m, p => t.add_html m p
  | Item.writing w, m, p => w.add_html m p
  | Item.code c, m, p => c.add_html m p
  | Item.involvement i, m, p => i.add_html m p

/-- The rendering loop shared by the `add_list_html` methods: render each
item, threading the previous item. -/
def renderSeq : List Item → Option Item → Indenter → Indenter
  | [], _, m => m
  | it :: rest, p, m => renderSeq rest (some it) (it.add_html m p)

/-- `BaseItem.add_list_html`: wrap the rendered sequence in a `<ul>`
carrying the class list of the variant the method is invoked on. -/
def add_list_html (html_classes : List String) (items : List Item)
    (markup : Indenter) : Indenter :=
  let class_str := String.intercalate " " html_classes
  let m1 := (markup.add ("<ul " ++ "class=" ++ sq ++ class_str ++ sq ++ ">")).up
  let m2 := renderSeq items none m1
  (m2.down).add "</ul>"

/-- `InvolvementItem.add_list_html`: the override renders the rows with no
wrapping container element. -/
def InvolvementItem.add_list_html (items : List Item) (markup : Indenter) : Indenter :=
  renderSeq items none markup

/-- The per-variant `html_classes` attributes. -/
def ListItem.html_classes : List String := ["publications"]

def BlogItem.html_classes : List String := ["publications", "publications-blog"]

def PressItem.html_classes : List String := ["publications", "publications-press"]

def TalksItem.html_classes : List String := ["publications", "publications-talks"]

def WritingItem.html_classes : List String := ["publications", "publications-other-writing"]

def CodeItem.html_classes : List String := ["publications"]

/-- Stable descending insertion: the new element goes in front of the
first element whose key is not larger (so in front of equal keys, which it
precedes in the original list). -/
def insertDesc {α δ : Type _} [LinearOrder δ] (key : α → δ) (x : α) : List α → List α
  | [] => [x]
  | y :: ys => if key y ≤ key x then x :: y :: ys else y :: insertDesc key x ys

/-- `BaseItem.sort`: `sorted(items, key=attrgetter("date"), reverse=True)`
— a stable sort, descending by date. -/
def sortItems {α δ : Type _} [LinearOrder δ] (key : α → δ) (l : List α) : List α :=
  l.foldr (insertDesc key) []

/-- `BlogItem.item_from_json`. -/
def blog_item_from_json (item_data all_data : JVal) : Except Err BlogItem := do
  let date ← date_from_json item_data
  let authors ← authors_from_json item_data all_data
  let source ← source_from_json item_data all_data
  let desc ←
    if jmem item_data "desc" then do
      let d ← jget item_data "desc"
      let d ← jstr d
      Except.ok (some d)
    else Except.ok (none : Option String)
  let title ← jget item_data "title"
  let title ← jstr title
  let url ← jget item_data "url"
  let url ← jstr url
  Except.ok (BlogItem.mk date title url source authors desc)

/-- `PublicationItem.item_from_json`. -/
def publication_item_from_json (nowYear : Int) (item_data all_data : JVal) :
    Except Err PublicationItem := do
  let yearv ← jget item_data "year"
  let year ← year_from_json nowYear yearv
  let authors ← authors_from_json item_data all_data
  let links ← links_from_json item_data
  let venue ← venue_from_json item_data all_data
  let url ←
    if jmem item_data "url" then do
      let u ← jget item_data "url"
      let u ← jstr u
      Except.ok (some u)
    else Except.ok (none : Option String)
  let notes ← pub_notes_from_json item_data
  let title ← jget item_data "title"
  let title ← jstr title
  Except.ok (PublicationItem.mk year title url authors links venue notes)

/-- `PressItem.__init__`: the type tag is validated against
`ITEM_TYPE_CLASSES` here, at construction. -/
def PressItem.init (date : DateTime) (title : String) (url : String)
    (source : Source) (item_type : String) : Except Err PressItem :=
  if (assocS ITEM_TYPE_CLASSES item_type).isNone then
    Except.error (Err.valueError (item_type ++ " is not a valid PressItem type"))
  else Except.ok (PressItem.mk date title url source item_type)

/-- `PressItem.item_from_json`. -/
def press_item_from_json (item_data all_data : JVal) : Except Err PressItem := do
  let date ← date_from_json item_data
  let source ← source_from_json item_data all_data
  let title ← jget item_data "title"
  let title ← jstr title
  let url ← jget item_data "url"
  let url ← jstr url
  let ty ← jget item_data "type"
  let ty ← jstr ty
  PressItem.init date title url source ty

/-- `TalksItem.item_from_json`. -/
def talks_item_from_json (nowYear : Int) (item_data all_data : JVal) :
    Except Err TalksItem := do
  let yearv ← jget item_data "year"
  let year ← year_from_json nowYear yearv
  let links ← links_from_json item_data
  let talk_type ← talk_type_from_json item_data all_data
  let venue ← venue_from_json item_data all_data
  let authors ← authors_from_json item_data all_data
  let url ←
    if jmem item_data "url" then do
      let u ← jget item_data "url"
      let u ← jstr u
      Except.ok (some u)
    else Except.ok (none : Option String)
  let title ← jget item_data "title"
  let title ← jstr title
  Except.ok (TalksItem.mk year title talk_type url links venue authors)

/-- `WritingItem.item_from_json`. -/
def writing_item_from_json (nowYear : Int) (item_data all_data : JVal) :
    Except Err WritingItem := do
  let yearv ← jget item_data "year"
  let year ← year_from_json nowYear yearv
  let links ← links_from_json item_data
  let url ←
    if jmem item_data "url" then do
      let u ← jget item_data "url"
      let u ← jstr u
      Except.ok (some u)
    else Except.ok (none : Option String)
  let venue ←
    if jmem item_data "venue" then do
      let v ← venue_from_json item_data all_data
      Except.ok (some v)
    else Except.ok (none : Option Venue)
  let authors ← authors_from_json item_data all_data
  let title ← jget item_data "title"
  let title ← jstr title
  let desc ← jget item_data "desc"
  let desc ← jstr desc
  Except.ok (WritingItem.mk year title url links venue desc authors)

/-- `CodeItem.item_from_json`. -/
def code_item_from_json (nowYear : Int) (item_data all_data : JVal) :
    Except Err CodeItem := do
  let yearv ← jget item_data "year"
  let year ← year_from_json nowYear yearv
  let links ← links_from_json item_data
  let url ←
    if jmem item_data "url" then do
      let u ← jget item_data "url"
      let u ← jstr u
      Except.ok (some u)
    else Except.ok (none : Option String)
  let title ← jget item_data "title"
  let title ← jstr title
  let desc ← jget item_data "desc"
  let desc ← jstr desc
  Except.ok (CodeItem.mk year title url links desc)

/-- `InvolvementItem.item_from_json`: venue as in `venue_from_json`; the
position is always resolved against `all_data["abbrs"]["positions"]`; the
year value is stored as read (the data holds integers, which is the shape
modelled). -/
def involvement_item_from_json (item_data all_data : JVal) :
    Except Err InvolvementItem := do
  let rv ← jget item_data "venue"
  let raw_venue ← jstr rv
  let venue ←
    match raw_venue.data with
    | [] => Except.error (Err.indexError "string index out of range")
    | c :: _ =>
        if c = '@' then do
          let tbl ← jget all_data "abbrs"
          let tbl ← jget tbl "venues"
          let r ← jget tbl raw_venue
          venueFromRecord r
        else
          Except.ok (Venue.mk raw_venue none)
  let rp ← jget item_data "position"
  let raw_position ← jstr rp
  let tbl ← jget all_data "abbrs"
  let tbl ← jget tbl "positions"
  let posv ← jget tbl raw_position
  let position ← jstr posv
  let datev ← jget item_data "year"
  let date ←
    match datev with
    | JVal.num n => Except.ok n
    | _ => Except.error (Err.typeError "involvement year")
  Except.ok (InvolvementItem.mk venue position date)

/-- `is_local_file_ref`: `None` and the empty string are falsy and not
local; a value containing `//` looks like an HTTP link and is not local. -/
def hasDoubleSlash : List Char → Bool
  | [] => false
  | [_] => false
  | a :: b :: rest => (a == '/' && b == '/') || hasDoubleSlash (b :: rest)

def is_local_file_ref (ref : Option String) : Bool :=
  match ref with
  | none => false
  | some s => if s = "" then false else !(hasDoubleSlash s.data)

/-- `root_dir / Path(a_ref)`. -/
def joinPath (root ref : String) : String := root ++ "/" ++ ref

/-- The per-variant `possible_files` collection of `BaseItem.validate`:
the values of the fields named in `file_fields` (`url` contributes its
optional value, `links` the url of each link). -/
def Item.possible_files : Item → List (Option String)
  | Item.blog b => [some b.url]
  | Item.publication p => [p.url] ++ p.links.map (fun l => some l.url)
  | Item.press p => [some p.url]
  | Item.talks t => [t.url] ++ t.links.map (fun l => some l.url)
  | Item.writing w => [w.url] ++ w.links.map (fun l => some l.url)
  | Item.code c => c.links.map (fun l => some l.url)
  | Item.involvement _ => []

/-- The checking loop of `BaseItem.validate`: raise `FileNotFoundError`
for the first local reference that is not a file under the root. -/
def checkFiles (root : String) (isFile : String → Bool) :
    List (Option String) → Except Err Bool
  | [] => Except.ok true
  | r :: rs =>
      if is_local_file_ref r then
        if isFile (joinPath root (r.getD "")) then checkFiles root isFile rs
        else Except.error (Err.fileNotFound (joinPath root (r.getD "")))
      else checkFiles root isFile rs

/-- `BaseItem.validate` (the filesystem is abstracted by the `isFile`
predicate on joined paths). -/
def Item.validate (it : Item) (root : String) (isFile : String → Bool) :
    Except Err Bool :=
  checkFiles root isFile it.possible_files

theorem addLines_eq : ∀ (ls : List String) (m : Indenter),
    m.addLines ls = ⟨m.level, m.lines ++ ls.map (fun s => (m.level, s))⟩ := by
  intro ls
  induction ls with
  | nil => intro m; simp [Indenter.addLines]
  | cons s rest ih =>
    intro m
    have h1 : m.addLines (s :: rest) = (m.add s).addLines rest := rfl
    rw [h1, ih]
    simp [Indenter.add]

/-- The line emitted by `add_desc_html`. -/
def descLine (desc : String) : String :=
  "<span " ++ "class=" ++ sq ++ "description" ++ sq ++ ">" ++ desc ++ "</span>"

theorem add_desc_html_eq (desc : String) (m : Indenter) :
    add_desc_html desc m = ⟨m.level, m.lines ++ [(m.level, descLine desc)]⟩ := rfl

/-- Lines emitted by `add_authors_html`. -/
def authorsLines (authors : List Author) (lvl : Nat) : List (Nat × String) :=
  if authors.length = 0 then []
  else ((lvl, "<ol " ++ "class=" ++ sq ++ "authors" ++ sq ++ ">") ::
        authors.map (fun a => (lvl + 1, authorLi a))) ++ [(lvl, "</ol>")]

theorem add_authors_html_eq (authors : List Author) (m : Indenter) :
    add_authors_html authors m = ⟨m.level, m.lines ++ authorsLines authors m.level⟩ := by
  unfold add_authors_html authorsLines
  split
  · simp
  · rw [addLines_eq]
    simp [Indenter.add, Indenter.up, Indenter.down]

/-- Lines emitted by `add_coauthors_html`. -/
def coauthorsLines (authors : List Author) (lvl : Nat) : List (Nat × String) :=
  let non_me_authors := authors.filter (fun a => a.abbr != some "@me")
  if non_me_authors.length = 0 then []
  else ((lvl, "<div " ++ "class=" ++ sq ++ "co-authors-sec" ++ sq ++ ">") ::
        (lvl + 1, "<span " ++ "class=" ++ sq ++ "co-authors-desc" ++ sq ++ ">Written with:</span>") ::
        (lvl + 1, "<ol " ++ "class=" ++ sq ++ "authors co-authors" ++ sq ++ ">") ::
        non_me_authors.map (fun a => (lvl + 2, authorLi a))) ++
       [(lvl + 1, "</ol>"), (lvl, "</div>")]

theorem add_coauthors_html_eq (authors : List Author) (m : Indenter) :
    add_coauthors_html authors m = ⟨m.level, m.lines ++ coauthorsLines authors m.level⟩ := by
  unfold add_coauthors_html coauthorsLines
  by_cases h : (authors.filter (fun a => a.abbr != some "@me")).length = 0
  · simp [h]
  · simp [h, addLines_eq, Indenter.add, Indenter.up, Indenter.down, Function.comp]

/-- Lines emitted by `add_links_html`. -/
def linksLines (links : List Link) (lvl : Nat) : List (Nat × String) :=
  if links.length = 0 then []
  else ((lvl, "<span " ++ "class=" ++ sq ++ "pub-links" ++ sq ++ ">") ::
        links.map (fun l => (lvl + 1, linkLine l))) ++ [(lvl, "</span>")]

theorem add_links_html_eq (links : List Link) (m : Indenter) :
    add_links_html links m = ⟨m.level, m.lines ++ linksLines links m.level⟩ := by
  unfold add_links_html linksLines
  split
  · simp
  · rw [addLines_eq]
    simp [Indenter.add, Indenter.up, Indenter.down]

/-- Lines emitted by `add_notes_and_links_html`. -/
def notesLinksLines (notes : List PubNote) (links : List Link) (lvl : Nat) :
    List (Nat × String) :=
  if links.length = 0 ∧ notes.length = 0 then []
  else ((lvl, "<span " ++ "class=" ++ sq ++ "pub-links" ++ sq ++ ">") ::
        (notes.map (fun n => (lvl + 1, n.to_html)) ++
         links.map (fun l => (lvl + 1, linkLine l)))) ++ [(lvl, "</span>")]

theorem add_notes_and_links_html_eq (notes : List PubNote) (links : List Link)
    (m : Indenter) :
    add_notes_and_links_html notes links m
      = ⟨m.level, m.lines ++ notesLinksLines notes links m.level⟩ := by
  unfold add_notes_and_links_html notesLinksLines
  split
  · simp
  · rw [addLines_eq, addLines_eq]
    simp [Indenter.add, Indenter.up, Indenter.down, Function.comp_def]

/-- Lines emitted by `add_dest_html`. -/
def destLines (dest : Dest) (date : DateVal) (lvl : Nat) : List (Nat × String) :=
  [(lvl, "<span " ++ "class=" ++ sq ++ "venue" ++ sq ++ ">"),
   (lvl + 1, dest.to_html), (lvl + 1, date_html date), (lvl, "</span>")]

theorem add_dest_html_eq (dest : Dest) (date : DateVal) (m : Indenter) :
    add_dest_html dest date m = ⟨m.level, m.lines ++ destLines dest date m.level⟩ := by
  unfold add_dest_html destLines
  simp [Indenter.add, Indenter.up, Indenter.down]

/-- Lines emitted by `add_date_html`. -/
def dateLines (date : DateVal) (lvl : Nat) : List (Nat × String) :=
  [(lvl, "<span " ++ "class=" ++ sq ++ "venue" ++ sq ++ ">"),
   (lvl + 1, date_html date), (lvl, "</span>")]

theorem add_date_html_eq (date : DateVal) (m : Indenter) :
    add_date_html date m = ⟨m.level, m.lines ++ dateLines date m.level⟩ := by
  unfold add_date_html dateLines
  simp [Indenter.add, Indenter.up, Indenter.down]

/-- The pill line of `PressItem.add_type_markup`. -/
def pressPill (p : PressItem) : String :=
  "<span " ++ "class=" ++ sq ++ "label label-" ++ (assocS ITEM_TYPE_CLASSES p.type).getD ""
    ++ sq ++ ">" ++ escape p.type ++ "</span>"

/-- Lines emitted by `PressItem.add_type_markup`. -/
def typeMarkupLines (p : PressItem) (lvl : Nat) : List (Nat × String) :=
  [(lvl, "<span " ++ "class=" ++ sq ++ "press-type" ++ sq ++ ">"),
   (lvl + 1, pressPill p), (lvl, "</span>")]

theorem add_type_markup_eq (p : PressItem) (m : Indenter) :
    p.add_type_markup m = ⟨m.level, m.lines ++ typeMarkupLines p m.level⟩ := by
  unfold PressItem.add_type_markup typeMarkupLines pressPill
  simp [Indenter.add, Indenter.up, Indenter.down]

/-- Lines emitted by `BlogItem.add_html`. -/
def blogLines (b : BlogItem) (lvl : Nat) : List (Nat × String) :=
  ((lvl, "<li>") :: (lvl + 1, title_html b.title (some b.url)) ::
    (coauthorsLines b.authors (lvl + 1) ++
     destLines (Dest.src b.source) (DateVal.dt b.date) (lvl + 1) ++
     (if optTruthy b.desc then [(lvl + 1, descLine (b.desc.getD ""))] else []))) ++
  [(lvl, "</li>")]

theorem blog_add_html_eq (b : BlogItem) (m : Indenter) (p : Option Item) :
    b.add_html m p = ⟨m.level, m.lines ++ blogLines b m.level⟩ := by
  unfold BlogItem.add_html blogLines
  by_cases h : optTruthy b.desc <;>
    simp [h, add_coauthors_html_eq, add_dest_html_eq, add_desc_html_eq,
      Indenter.add, Indenter.up, Indenter.down]

/-- Lines emitted by `PublicationItem.add_html`. -/
def publicationLines (q : PublicationItem) (lvl : Nat) : List (Nat × String) :=
  ((lvl, "<li>") :: (lvl + 1, title_html q.title q.url) ::
    (authorsLines q.authors (lvl + 1) ++
     destLines (Dest.ven q.venue) (DateVal.yr q.date) (lvl + 1) ++
     notesLinksLines q.notes q.links (lvl + 1))) ++
  [(lvl, "</li>")]

theorem publication_add_html_eq (q : PublicationItem) (m : Indenter) (p : Option Item) :
    q.add_html m p = ⟨m.level, m.lines ++ publicationLines q m.level⟩ := by
  unfold PublicationItem.add_html publicationLines
  simp [add_authors_html_eq, add_dest_html_eq, add_notes_and_links_html_eq,
    Indenter.add, Indenter.up, Indenter.down]

/-- Lines emitted by `PressItem.add_html`. -/
def pressLines (q : PressItem) (lvl : Nat) : List (Nat × String) :=
  ((lvl, "<li>") :: (lvl + 1, title_html q.title (some q.url)) ::
    (typeMarkupLines q (lvl + 1) ++
     destLines (Dest.src q.source) (DateVal.dt q.date) (lvl + 1))) ++
  [(lvl, "</li>")]

theorem press_add_html_eq (q : PressItem) (m : Indenter) (p : Option Item) :
    q.add_html m p = ⟨m.level, m.lines ++ pressLines q m.level⟩ := by
  unfold PressItem.add_html pressLines
  simp [add_type_markup_eq, add_dest_html_eq, Indenter.add, Indenter.up, Indenter.down]

/-- Lines emitted by `TalksItem.add_html`. -/
def talksLines (t : TalksItem) (lvl : Nat) : List (Nat × String) :=
  ((lvl, "<li>") :: (lvl + 1, title_html t.title t.url) ::
    ((if 0 < t.authors.length then authorsLines t.authors (lvl + 1) else []) ++
     destLines (Dest.ven t.venue) (DateVal.yr t.date) (lvl + 1) ++
     ([(lvl + 1, t.type.to_html)] ++ linksLines t.links (lvl + 1)))) ++
  [(lvl, "</li>")]

theorem talks_add_html_eq (t : TalksItem) (m : Indenter) (p : Option Item) :
    t.add_html m p = ⟨m.level, m.lines ++ talksLines t m.level⟩ := by
  unfold TalksItem.add_html talksLines
  by_cases h : 0 < t.authors.length <;>
    simp [h, add_authors_html_eq, add_dest_html_eq, add_links_html_eq,
      Indenter.add, Indenter.up, Indenter.down]

/-- Lines emitted by `WritingItem.add_html`. -/
def writingLines (w : WritingItem) (lvl : Nat) : List (Nat × String) :=
  ((lvl, "<li>") :: (lvl + 1, title_html w.title w.url) ::
    (authorsLines w.authors (lvl + 1) ++
     (match w.venue with
      | some v => destLines (Dest.ven v) (DateVal.yr w.date) (lvl + 1)
      | none => dateLines (DateVal.yr w.date) (lvl + 1)) ++
     linksLines w.links (lvl + 1) ++
     [(lvl + 1, descLine w.desc)])) ++
  [(lvl, "</li>")]

theorem writing_add_html_eq (w : WritingItem) (m : Indenter) (p : Option Item) :
    w.add_html m p = ⟨m.level, m.lines ++ writingLines w m.level⟩ := by
  unfold WritingItem.add_html writingLines
  match hv : w.venue with
  | some v =>
      simp [hv, add_authors_html_eq, add_dest_html_eq, add_links_html_eq,
        add_desc_html_eq, Indenter.add, Indenter.up, Indenter.down]
  | none =>
      simp [hv, add_authors_html_eq, add_date_html_eq, add_links_html_eq,
        add_desc_html_eq, Indenter.add, Indenter.up, Indenter.down]

/-- Lines emitted by `CodeItem.add_html`. -/
def codeLines (c : CodeItem) (lvl : Nat) : List (Nat × String) :=
  ((lvl, "<li>") :: (lvl + 1, title_html c.title c.url) ::
    (dateLines (DateVal.yr c.date) (lvl + 1) ++
     linksLines c.links (lvl + 1) ++
     [(lvl + 1, descLine c.desc)])) ++
  [(lvl, "</li>")]

theorem code_add_html_eq (c : CodeItem) (m : Indenter) (p : Option Item) :
    c.add_html m p = ⟨m.level, m.lines ++ codeLines c m.level⟩ := by
  unfold CodeItem.add_html codeLines
  simp [add_date_html_eq, add_links_html_eq, add_desc_html_eq,
    Indenter.add, Indenter.up, Indenter.down]

/-- Does `InvolvementItem.add_html` emit a year-header row before this
item, given the prior item? -/
def needYearHeader (it : InvolvementItem) (prior : Option Item) : Bool :=
  match prior with
  | none => true
  | some p => DateVal.yr it.date != p.dateVal

/-- Lines emitted by `InvolvementItem.add_html`. -/
def involvementLines (it : InvolvementItem) (prior : Option Item) (lvl : Nat) :
    List (Nat × String) :=
  (if needYearHeader it prior then
     [(lvl, "<tr>"), (lvl + 1, involvementHeaderTh it.date), (lvl, "</tr>")]
   else []) ++
  [(lvl, "<tr>"), (lvl + 1, involvementTdVenue it.venue),
   (lvl + 1, involvementTdPosition it.position), (lvl, "</tr>")]

theorem involvement_add_html_eq (it : InvolvementItem) (m : Indenter) (p : Option Item) :
    it.add_html m p = ⟨m.level, m.lines ++ involvementLines it p m.level⟩ := by
  unfold InvolvementItem.add_html involvementLines needYearHeader
  by_cases h : (match p with
    | none => true
    | some q => DateVal.yr it.date != q.dateVal) = true <;>
    simp [h, Indenter.add, Indenter.up, Indenter.down]

/-- The markup fragment one item appends: its lines, each with the level it
is recorded at when rendering starts at level `lvl`. -/
def Item.fragLines : Item → Option Item → Nat → List (Nat × String)
  | Item.blog b, _, lvl => blogLines b lvl
  | Item.publication q, _, lvl => publicationLines q lvl
  | Item.press q, _, lvl => pressLines q lvl
  | Item.talks t, _, lvl => talksLines t lvl
  | Item.writing w, _, lvl => writingLines w lvl
  | Item.code c, _, lvl => codeLines c lvl
  | Item.involvement i, p, lvl => involvementLines i p lvl

/-- `add_html` is local: it preserves the indentation level and appends
exactly its fragment lines to the buffer. -/
theorem add_html_eq (it : Item) (m : Indenter) (p : Option Item) :
    it.add_html m p = ⟨m.level, m.lines ++ it.fragLines p m.level⟩ := by
  cases it with
  | blog b => exact blog_add_html_eq b m p
  | publication q => exact publication_add_html_eq q m p
  | press q => exact press_add_html_eq q m p
  | talks t => exact talks_add_html_eq t m p
  | writing w => exact writing_add_html_eq w m p
  | code c => exact code_add_html_eq c m p
  | involvement i => exact involvement_add_html_eq i m p

/-- The scan of a whole line emits exactly these tag events and ends
outside any tag. -/
def ScansToS (s : String) (ts : List HTag) : Prop := scanEmit none s.data = (ts, none)

instance (s : String) (ts : List HTag) : Decidable (ScansToS s ts) := by
  unfold ScansToS; infer_instance

theorem scansToS_append {a b : String} {ta tb : List HTag}
    (ha : ScansToS a ta) (hb : ScansToS b tb) : ScansToS (a ++ b) (ta ++ tb) := by
  unfold ScansToS at *
  rw [String.data_append, scanEmit_append, ha]
  simp [hb]

theorem scansToS_noAngle {s : String} (h : noAngle s) : ScansToS s [] :=
  scanEmit_noAngle_none h

theorem lineTags_of_scansToS {s : String} {ts : List HTag} (h : ScansToS s ts) :
    lineTags s = ts := by
  unfold lineTags
  rw [h]

theorem takeWhile_append_stop {p : Char → Bool} {l1 : List Char} (l2 : List Char)
    (h : ∃ x ∈ l1, p x = false) : (l1 ++ l2).takeWhile p = l1.takeWhile p := by
  induction l1 with
  | nil => simp at h
  | cons a as ih =>
    rcases h with ⟨x, hx, hpx⟩
    by_cases hpa : p a = true
    · simp only [List.cons_append, List.takeWhile_cons, hpa, if_true]
      have hex : ∃ y ∈ as, p y = false := by
        rcases List.mem_cons.mp hx with h1 | h1
        · subst h1; rw [hpx] at hpa; cases hpa
        · exact ⟨x, h1, hpx⟩
      rw [ih hex]
    · simp only [List.cons_append, List.takeWhile_cons]
      rw [Bool.not_eq_true] at hpa
      simp [hpa]

theorem tagName_append {l1 : List Char} (l2 : List Char) (h : ' ' ∈ l1) :
    tagName (l1 ++ l2) = tagName l1 := by
  unfold tagName
  rw [takeWhile_append_stop]
  exact ⟨' ', h, by decide⟩

theorem parseTag_open_append (c : Char) (pre rest : List Char) (hc : ¬c = '/')
    (hsp : ' ' ∈ c :: pre) :
    parseTag ((c :: pre) ++ rest) = HTag.open_ (tagName (c :: pre)) := by
  have e : parseTag ((c :: pre) ++ rest)
      = if c = '/' then HTag.close (tagName (pre ++ rest))
        else HTag.open_ (tagName ((c :: pre) ++ rest)) := rfl
  rw [e, if_neg hc, tagName_append _ hsp]

theorem scanEmit_openTag (body rest : List Char) (h : noAngleL body) :
    scanEmit none (('<' :: body ++ ['>']) ++ rest)
      = (parseTag body :: (scanEmit none rest).1, (scanEmit none rest).2) := by
  have e0 : ('<' :: body ++ ['>']) ++ rest = '<' :: (body ++ ('>' :: rest)) := by simp
  rw [e0]
  have e1 : scanEmit none ('<' :: (body ++ '>' :: rest))
      = scanEmit (some []) (body ++ '>' :: rest) := by simp [scanEmit]
  rw [e1, scanEmit_append, scanEmit_noAngle_some h []]
  simp [scanEmit]

/-- One open tag, then tag-free middle text, then a known tail scan. -/
theorem scanEmit_tag_mid (body mid ctail : List Char) (tc : List HTag)
    (hb : noAngleL body) (hm : noAngleL mid)
    (hc : scanEmit none ctail = (tc, none)) :
    scanEmit none (('<' :: body ++ ['>']) ++ (mid ++ ctail))
      = (parseTag body :: tc, none) := by
  rw [scanEmit_openTag _ _ hb, scanEmit_append, scanEmit_noAngle_none hm]
  simp [hc]

theorem digitChar_noAngle (n : Nat) : digitChar n ≠ '<' ∧ digitChar n ≠ '>' := by
  match n with
  | 0 => decide
  | 1 => decide
  | 2 => decide
  | 3 => decide
  | 4 => decide
  | 5 => decide
  | 6 => decide
  | 7 => decide
  | 8 => decide
  | k + 9 => exact (by decide : ('9' : Char) ≠ '<' ∧ ('9' : Char) ≠ '>')

theorem noAngleL_natStrAux (fuel : Nat) : ∀ n, noAngleL (natStrAux fuel n) := by
  induction fuel with
  | zero => intro n; intro c hc; simp [natStrAux] at hc
  | succ f ih =>
    intro n
    unfold natStrAux
    split
    · intro c hc
      simp at hc
      subst hc
      exact digitChar_noAngle n
    · refine noAngleL_append (ih (n / 10)) ?_
      intro c hc
      simp at hc
      subst hc
      exact digitChar_noAngle (n % 10)

theorem noAngle_natStr (n : Nat) : noAngle (natStr n) := noAngleL_natStrAux (n + 1) n

theorem noAngle_append {a b : String} (ha : noAngle a) (hb : noAngle b) :
    noAngle (a ++ b) := by
  unfold noAngle
  rw [String.data_append]
  exact noAngleL_append ha hb

theorem noAngle_intStr (i : Int) : noAngle (intStr i) := by
  unfold intStr
  split
  · exact noAngle_append (by decide) (noAngle_natStr _)
  · exact noAngle_natStr _

theorem noAngle_pad2 (n : Nat) : noAngle (pad2 n) := by
  unfold pad2
  split
  · exact noAngle_append (by decide) (noAngle_natStr _)
  · exact noAngle_natStr _

theorem noAngle_monthAbbr (m : Nat) : noAngle (monthAbbr m) := by
  unfold monthAbbr
  split <;> decide

theorem noAngle_strftimeLine (d : DateTime) : noAngle d.strftimeLine := by
  unfold DateTime.strftimeLine
  exact noAngle_append (noAngle_append (noAngle_append (noAngle_append
    (noAngle_monthAbbr _) (by decide)) (noAngle_pad2 _)) (by decide)) (noAngle_intStr _)

theorem noAngle_strftimeValue (d : DateTime) : noAngle d.strftimeValue := by
  unfold DateTime.strftimeValue
  exact noAngle_append (noAngle_append (noAngle_append (noAngle_append
    (noAngle_intStr _) (by decide)) (noAngle_pad2 _)) (by decide)) (noAngle_pad2 _)

theorem noAngle_sq : noAngle sq := by decide

theorem noAngle_pressClass (t : String) :
    noAngle ((assocS ITEM_TYPE_CLASSES t).getD "") := by
  simp only [ITEM_TYPE_CLASSES, assocS]
  split_ifs <;> decide


theorem noAngleL_cons {c : Char} {cs : List Char} (h1 : c ≠ '<' ∧ c ≠ '>')
    (h2 : noAngleL cs) : noAngleL (c :: cs) := by
  intro x hx
  rcases List.mem_cons.mp hx with rfl | hx
  · exact h1
  · exact h2 x hx

/-- An optional string that is `<`/`>`-free when present. -/
def optNoAngle (o : Option String) : Bool :=
  match o with
  | none => true
  | some u => decide (noAngle u)

theorem optNoAngle_some {o : Option String} {u : String}
    (h : optNoAngle o = true) (hu : o = some u) : noAngle u := by
  subst hu
  simpa [optNoAngle] using h

/-- Open tag, tag-free middle, closing tag, on one line. -/
theorem scansToS_wrap3 {o mid c : String} {t1 t2 : List HTag}
    (ho : ScansToS o t1) (hm : noAngle mid) (hc : ScansToS c t2) :
    ScansToS (o ++ mid ++ c) (t1 ++ t2) := by
  have h := scansToS_append (scansToS_append ho (scansToS_noAngle hm)) hc
  simpa using h

/-- An anchor with a raw url in its href attribute scans to an open/close pair. -/
theorem scansToS_anchor (u txt : String) (hu : noAngle u) :
    ScansToS (anchorHtml (hrefAttr u) txt) [HTag.open_ "a", HTag.close "a"] := by
  unfold ScansToS
  have dsq : sq.data = [Char.ofNat 39] := rfl
  have hdata : (anchorHtml (hrefAttr u) txt).data
      = (('<' :: 'a' :: ' ' :: 'h' :: 'r' :: 'e' :: 'f' :: '=' :: Char.ofNat 39 :: (u.data ++ [Char.ofNat 39]) ++ ['>']) ++ (((escape txt).data) ++ "</a>".data)) := by
    simp [anchorHtml, hrefAttr, String.data_append, List.append_assoc, dsq]
  rw [hdata]
  have hb : noAngleL ('a' :: ' ' :: 'h' :: 'r' :: 'e' :: 'f' :: '=' :: Char.ofNat 39 :: (u.data ++ [Char.ofNat 39])) :=
    noAngleL_cons (by decide) (noAngleL_cons (by decide) (noAngleL_cons (by decide) (noAngleL_cons (by decide) (noAngleL_cons (by decide) (noAngleL_cons (by decide) (noAngleL_cons (by decide) (noAngleL_cons (by decide) (noAngleL_append hu (by decide)))))))))
  rw [scanEmit_tag_mid _ _ _ [HTag.close "a"] hb (noAngle_escape txt) (by decide)]
  have h0 := parseTag_open_append 'a' [' ']
    ('h' :: 'r' :: 'e' :: 'f' :: '=' :: Char.ofNat 39 :: (u.data ++ [Char.ofNat 39])) (by decide) (by decide)
  simp only [List.cons_append, List.nil_append] at h0
  rw [h0, show tagName ['a', ' '] = "a" by decide]
/-- The anchor branch of the title line scans to an open/close pair. -/
theorem scansToS_title_anchor (title u : String) (hu : noAngle u) (hne : ¬u = "") :
    ScansToS (title_html title (some u)) [HTag.open_ "a", HTag.close "a"] := by
  unfold ScansToS
  have hred : title_html title (some u)
      = (if u = "" then "<span " ++ "class=" ++ sq ++ "pub-title" ++ sq ++ ">"
          ++ escape title ++ "</span>"
        else "<a " ++ "class=" ++ sq ++ "pub-title" ++ sq ++ " " ++ hrefAttr u ++ ">"
          ++ escape title ++ "</a>") := rfl
  rw [hred, if_neg hne]
  have dsq : sq.data = [Char.ofNat 39] := rfl
  have hdata : ("<a " ++ "class=" ++ sq ++ "pub-title" ++ sq ++ " " ++ hrefAttr u ++ ">"
        ++ escape title ++ "</a>").data
      = (('<' :: 'a' :: ' ' :: 'c' :: 'l' :: 'a' :: 's' :: 's' :: '=' :: Char.ofNat 39 :: 'p' :: 'u' :: 'b' :: '-' :: 't' :: 'i' :: 't' :: 'l' :: 'e' :: Char.ofNat 39 :: ' ' :: 'h' :: 'r' :: 'e' :: 'f' :: '=' :: Char.ofNat 39 :: (u.data ++ [Char.ofNat 39]) ++ ['>']) ++ (((escape title).data) ++ "</a>".data)) := by
    simp [hrefAttr, String.data_append, List.append_assoc, dsq]
  rw [hdata]
  have hb : noAngleL ('a' :: ' ' :: 'c' :: 'l' :: 'a' :: 's' :: 's' :: '=' :: Char.ofNat 39 :: 'p' :: 'u' :: 'b' :: '-' :: 't' :: 'i' :: 't' :: 'l' :: 'e' :: Char.ofNat 39 :: ' ' :: 'h' :: 'r' :: 'e' :: 'f' :: '=' :: Char.ofNat 39 :: (u.data ++ [Char.ofNat 39])) :=
    noAngleL_cons (by decide) (noAngleL_cons (by decide) (noAngleL_cons (by decide) (noAngleL_cons (by decide) (noAngleL_cons (by decide) (noAngleL_cons (by decide) (noAngleL_cons (by decide) (noAngleL_cons (by decide) (noAngleL_cons (by decide) (noAngleL_cons (by decide) (noAngleL_cons (by decide) (noAngleL_cons (by decide) (noAngleL_cons (by decide) (noAngleL_cons (by decide) (noAngleL_cons (by decide) (noAngleL_cons (by decide) (noAngleL_cons (by decide) (noAngleL_cons (by decide) (noAngleL_cons (by decide) (noAngleL_cons (by decide) (noAngleL_cons (by decide) (noAngleL_cons (by decide) (noAngleL_cons (by decide) (noAngleL_cons (by decide) (noAngleL_cons (by decide) (noAngleL_cons (by decide) (noAngleL_append hu (by decide)))))))))))))))))))))))))))
  rw [scanEmit_tag_mid _ _ _ [HTag.close "a"] hb (noAngle_escape title) (by decide)]
  have h0 := parseTag_open_append 'a' [' ']
    ('c' :: 'l' :: 'a' :: 's' :: 's' :: '=' :: Char.ofNat 39 :: 'p' :: 'u' :: 'b' :: '-' :: 't' :: 'i' :: 't' :: 'l' :: 'e' :: Char.ofNat 39 :: ' ' :: 'h' :: 'r' :: 'e' :: 'f' :: '=' :: Char.ofNat 39 :: (u.data ++ [Char.ofNat 39])) (by decide) (by decide)
  simp only [List.cons_append, List.nil_append] at h0
  rw [h0, show tagName ['a', ' '] = "a" by decide]
/-- A time element with raw datetime attribute and text scans to an open/close pair. -/
theorem scansToS_time_line (v l : String) (hv : noAngle v) (hl : noAngle l) :
    ScansToS ("<time datetime=" ++ sq ++ v ++ sq ++ ">" ++ l ++ "</time>") [HTag.open_ "time", HTag.close "time"] := by
  unfold ScansToS
  have dsq : sq.data = [Char.ofNat 39] := rfl
  have hdata : ("<time datetime=" ++ sq ++ v ++ sq ++ ">" ++ l ++ "</time>").data
      = (('<' :: 't' :: 'i' :: 'm' :: 'e' :: ' ' :: 'd' :: 'a' :: 't' :: 'e' :: 't' :: 'i' :: 'm' :: 'e' :: '=' :: Char.ofNat 39 :: (v.data ++ [Char.ofNat 39]) ++ ['>']) ++ ((l.data) ++ "</time>".data)) := by
    simp [String.data_append, List.append_assoc, dsq]
  rw [hdata]
  have hb : noAngleL ('t' :: 'i' :: 'm' :: 'e' :: ' ' :: 'd' :: 'a' :: 't' :: 'e' :: 't' :: 'i' :: 'm' :: 'e' :: '=' :: Char.ofNat 39 :: (v.data ++ [Char.ofNat 39])) :=
    noAngleL_cons (by decide) (noAngleL_cons (by decide) (noAngleL_cons (by decide) (noAngleL_cons (by decide) (noAngleL_cons (by decide) (noAngleL_cons (by decide) (noAngleL_cons (by decide) (noAngleL_cons (by decide) (noAngleL_cons (by decide) (noAngleL_cons (by decide) (noAngleL_cons (by decide) (noAngleL_cons (by decide) (noAngleL_cons (by decide) (noAngleL_cons (by decide) (noAngleL_cons (by decide) (noAngleL_append hv (by decide))))))))))))))))
  rw [scanEmit_tag_mid _ _ _ [HTag.close "time"] hb hl (by decide)]
  have h0 := parseTag_open_append 't' ['i', 'm', 'e', ' ']
    ('d' :: 'a' :: 't' :: 'e' :: 't' :: 'i' :: 'm' :: 'e' :: '=' :: Char.ofNat 39 :: (v.data ++ [Char.ofNat 39])) (by decide) (by decide)
  simp only [List.cons_append, List.nil_append] at h0
  rw [h0, show tagName ['t', 'i', 'm', 'e', ' '] = "time" by decide]
/-- The press-type pill line scans to an open/close span pair. -/
theorem scansToS_pressPill (p : PressItem) :
    ScansToS (pressPill p) [HTag.open_ "span", HTag.close "span"] := by
  unfold ScansToS
  have dsq : sq.data = [Char.ofNat 39] := rfl
  have hdata : (pressPill p).data
      = (('<' :: 's' :: 'p' :: 'a' :: 'n' :: ' ' :: 'c' :: 'l' :: 'a' :: 's' :: 's' :: '=' :: Char.ofNat 39 :: 'l' :: 'a' :: 'b' :: 'e' :: 'l' :: ' ' :: 'l' :: 'a' :: 'b' :: 'e' :: 'l' :: '-' :: (((assocS ITEM_TYPE_CLASSES p.type).getD "").data ++ [Char.ofNat 39]) ++ ['>']) ++ (((escape p.type).data) ++ "</span>".data)) := by
    simp [pressPill, String.data_append, List.append_assoc, dsq]
  rw [hdata]
  have hb : noAngleL ('s' :: 'p' :: 'a' :: 'n' :: ' ' :: 'c' :: 'l' :: 'a' :: 's' :: 's' :: '=' :: Char.ofNat 39 :: 'l' :: 'a' :: 'b' :: 'e' :: 'l' :: ' ' :: 'l' :: 'a' :: 'b' :: 'e' :: 'l' :: '-' :: (((assocS ITEM_TYPE_CLASSES p.type).getD "").data ++ [Char.ofNat 39])) :=
    noAngleL_cons (by decide) (noAngleL_cons (by decide) (noAngleL_cons (by decide) (noAngleL_cons (by decide) (noAngleL_cons (by decide) (noAngleL_cons (by decide) (noAngleL_cons (by decide) (noAngleL_cons (by decide) (noAngleL_cons (by decide) (noAngleL_cons (by decide) (noAngleL_cons (by decide) (noAngleL_cons (by decide) (noAngleL_cons (by decide) (noAngleL_cons (by decide) (noAngleL_cons (by decide) (noAngleL_cons (by decide) (noAngleL_cons (by decide) (noAngleL_cons (by decide) (noAngleL_cons (by decide) (noAngleL_cons (by decide) (noAngleL_cons (by decide) (noAngleL_cons (by decide) (noAngleL_cons (by decide) (noAngleL_cons (by decide) (noAngleL_append (noAngle_pressClass p.type) (by decide)))))))))))))))))))))))))
  rw [scanEmit_tag_mid _ _ _ [HTag.close "span"] hb (noAngle_escape p.type) (by decide)]
  have h0 := parseTag_open_append 's' ['p', 'a', 'n', ' ']
    ('c' :: 'l' :: 'a' :: 's' :: 's' :: '=' :: Char.ofNat 39 :: 'l' :: 'a' :: 'b' :: 'e' :: 'l' :: ' ' :: 'l' :: 'a' :: 'b' :: 'e' :: 'l' :: '-' :: (((assocS ITEM_TYPE_CLASSES p.type).getD "").data ++ [Char.ofNat 39])) (by decide) (by decide)
  simp only [List.cons_append, List.nil_append] at h0
  rw [h0, show tagName ['s', 'p', 'a', 'n', ' '] = "span" by decide]


/-- The element wrapping the title: an anchor for a truthy url, else a
span. -/
def titleTagName (url : Option String) : String :=
  match url with
  | some u => if u = "" then "span" else "a"
  | none => "span"

theorem scansToS_title_html (title : String) (url : Option String)
    (hu : optNoAngle url = true) :
    ScansToS (title_html title url)
      [HTag.open_ (titleTagName url), HTag.close (titleTagName url)] := by
  match url with
  | none =>
      have hr : title_html title none
          = "<span " ++ "class=" ++ sq ++ "pub-title" ++ sq ++ ">"
            ++ escape title ++ "</span>" := rfl
      have hr2 : titleTagName none = "span" := rfl
      rw [hr, hr2]
      exact scansToS_wrap3
        (show ScansToS ("<span " ++ "class=" ++ sq ++ "pub-title" ++ sq ++ ">")
          [HTag.open_ "span"] by decide)
        (noAngle_escape title)
        (show ScansToS "</span>" [HTag.close "span"] by decide)
  | some u =>
      by_cases he : u = ""
      · subst he
        have hr : title_html title (some "")
            = "<span " ++ "class=" ++ sq ++ "pub-title" ++ sq ++ ">"
              ++ escape title ++ "</span>" := rfl
        have hr2 : titleTagName (some "") = "span" := rfl
        rw [hr, hr2]
        exact scansToS_wrap3
          (show ScansToS ("<span " ++ "class=" ++ sq ++ "pub-title" ++ sq ++ ">")
            [HTag.open_ "span"] by decide)
          (noAngle_escape title)
          (show ScansToS "</span>" [HTag.close "span"] by decide)
      · have hr2 : titleTagName (some u) = if u = "" then "span" else "a" := rfl
        rw [hr2, if_neg he]
        exact scansToS_title_anchor title u (optNoAngle_some hu rfl) he

theorem scansToS_date_html (d : DateVal) :
    ScansToS (date_html d) [HTag.open_ "time", HTag.close "time"] := by
  match d with
  | DateVal.dt d0 =>
      have hr : date_html (DateVal.dt d0)
          = "<time datetime=" ++ sq ++ d0.strftimeValue ++ sq ++ ">"
            ++ d0.strftimeLine ++ "</time>" := rfl
      rw [hr]
      exact scansToS_time_line _ _ (noAngle_strftimeValue d0) (noAngle_strftimeLine d0)
  | DateVal.yr y =>
      have hr : date_html (DateVal.yr y)
          = "<time datetime=" ++ sq ++ intStr y ++ sq ++ ">"
            ++ intStr y ++ "</time>" := rfl
      rw [hr]
      exact scansToS_time_line _ _ (noAngle_intStr y) (noAngle_intStr y)

/-- The tag events of rendering a record with an optional url: an anchor
pair when a url is present, nothing otherwise. -/
def optAnchorTags (o : Option String) : List HTag :=
  match o with
  | some _ => [HTag.open_ "a", HTag.close "a"]
  | none => []

theorem scansToS_venue_html (v : Venue) (h : optNoAngle v.url = true) :
    ScansToS v.to_html (optAnchorTags v.url) := by
  match hv : v.url with
  | some u =>
      have hr : v.to_html = anchorHtml (hrefAttr u) v.title := by
        unfold Venue.to_html
        rw [hv]
      rw [hr]
      exact scansToS_anchor u v.title (optNoAngle_some (hv ▸ h) rfl)
  | none =>
      have hr : v.to_html = escape v.title := by
        unfold Venue.to_html
        rw [hv]
      rw [hr]
      exact scansToS_noAngle (noAngle_escape v.title)

theorem scansToS_source_html (s : Source) (h : optNoAngle s.url = true) :
    ScansToS s.to_html (optAnchorTags s.url) := by
  match hv : s.url with
  | some u =>
      have hr : s.to_html = anchorHtml (hrefAttr u) s.title := by
        unfold Source.to_html
        rw [hv]
      rw [hr]
      exact scansToS_anchor u s.title (optNoAngle_some (hv ▸ h) rfl)
  | none =>
      have hr : s.to_html = escape s.title := by
        unfold Source.to_html
        rw [hv]
      rw [hr]
      exact scansToS_noAngle (noAngle_escape s.title)

theorem scansToS_link_html (l : Link) (h : noAngle l.url) :
    ScansToS l.to_html [HTag.open_ "a", HTag.close "a"] :=
  scansToS_anchor l.url l.title h

theorem scansToS_pubNote_html (n : PubNote) :
    ScansToS n.to_html [HTag.open_ "span", HTag.close "span"] := by
  have hr : n.to_html
      = "<span " ++ "class=" ++ sq ++ "pub-note" ++ sq ++ ">"
        ++ escape n.text ++ "</span>" := rfl
  rw [hr]
  exact scansToS_wrap3
    (show ScansToS ("<span " ++ "class=" ++ sq ++ "pub-note" ++ sq ++ ">")
      [HTag.open_ "span"] by decide)
    (noAngle_escape n.text)
    (show ScansToS "</span>" [HTag.close "span"] by decide)

theorem scansToS_talkType_html (t : TalkType) :
    ScansToS t.to_html [HTag.open_ "span", HTag.close "span"] := by
  have hr : t.to_html
      = "<span " ++ "class=" ++ sq ++ "talk-type" ++ sq ++ ">"
        ++ escape t.label ++ "</span>" := rfl
  rw [hr]
  exact scansToS_wrap3
    (show ScansToS ("<span " ++ "class=" ++ sq ++ "talk-type" ++ sq ++ ">")
      [HTag.open_ "span"] by decide)
    (noAngle_escape t.label)
    (show ScansToS "</span>" [HTag.close "span"] by decide)

theorem lineTags_authorLi (a : Author) :
    lineTags (authorLi a) = [HTag.open_ "li", HTag.close "li"] := by
  have hr : authorLi a = "<li>" ++ escape a.title ++ "</li>" := rfl
  rw [hr]
  exact lineTags_of_scansToS (scansToS_wrap3
    (show ScansToS "<li>" [HTag.open_ "li"] by decide)
    (noAngle_escape a.title)
    (show ScansToS "</li>" [HTag.close "li"] by decide))

theorem lineTags_descLine (d : String) (hd : noAngle d) :
    lineTags (descLine d) = [HTag.open_ "span", HTag.close "span"] := by
  unfold descLine
  exact lineTags_of_scansToS (scansToS_wrap3
    (show ScansToS ("<span " ++ "class=" ++ sq ++ "description" ++ sq ++ ">")
      [HTag.open_ "span"] by decide)
    hd
    (show ScansToS "</span>" [HTag.close "span"] by decide))

theorem lineTags_linkLine (l : Link) (h : noAngle l.url) :
    lineTags (linkLine l)
      = [HTag.open_ "span", HTag.open_ "a", HTag.close "a", HTag.close "span"] := by
  have hr : linkLine l
      = "<span " ++ "class=" ++ sq ++ "label label-default pub-link" ++ sq ++ ">"
        ++ l.to_html ++ "</span>" := rfl
  rw [hr]
  exact lineTags_of_scansToS (scansToS_append (scansToS_append
    (show ScansToS ("<span " ++ "class=" ++ sq ++ "label label-default pub-link" ++ sq ++ ">")
      [HTag.open_ "span"] by decide)
    (scansToS_link_html l h))
    (show ScansToS "</span>" [HTag.close "span"] by decide))

theorem lineTags_headerTh (y : Int) :
    lineTags (involvementHeaderTh y) = [HTag.open_ "th", HTag.close "th"] := by
  unfold involvementHeaderTh
  exact lineTags_of_scansToS (scansToS_wrap3
    (show ScansToS "<th colspan=\"2\" class=\"year active\">" [HTag.open_ "th"] by decide)
    (noAngle_intStr y)
    (show ScansToS "</th>" [HTag.close "th"] by decide))

theorem lineTags_tdVenue (v : Venue) (h : optNoAngle v.url = true) :
    lineTags (involvementTdVenue v)
      = [HTag.open_ "td"] ++ optAnchorTags v.url ++ [HTag.close "td"] := by
  unfold involvementTdVenue
  exact lineTags_of_scansToS (scansToS_append (scansToS_append
    (show ScansToS "<td class=\"venue\">" [HTag.open_ "td"] by decide)
    (scansToS_venue_html v h))
    (show ScansToS "</td>" [HTag.close "td"] by decide))

theorem lineTags_tdPosition (pos : String) :
    lineTags (involvementTdPosition pos) = [HTag.open_ "td", HTag.close "td"] := by
  unfold involvementTdPosition
  exact lineTags_of_scansToS (scansToS_wrap3
    (show ScansToS "<td class=\"position\">" [HTag.open_ "td"] by decide)
    (noAngle_escape pos)
    (show ScansToS "</td>" [HTag.close "td"] by decide))

/-- All tag events of a sequence of output lines, in order. -/
def tagsOfLines (ls : List (Nat × String)) : List HTag :=
  (ls.map (fun q => lineTags q.2)).flatten

theorem tagsOfLines_nil : tagsOfLines [] = [] := rfl

theorem tagsOfLines_cons (q : Nat × String) (rest : List (Nat × String)) :
    tagsOfLines (q :: rest) = lineTags q.2 ++ tagsOfLines rest := rfl

theorem tagsOfLines_append (a b : List (Nat × String)) :
    tagsOfLines (a ++ b) = tagsOfLines a ++ tagsOfLines b := by
  unfold tagsOfLines
  simp

/-- Well-formed `Venue` / `Source`: the optional url is `<`/`>`-free
(urls are inserted unescaped into attributes). -/
def Venue.wf (v : Venue) : Bool := optNoAngle v.url

def Source.wf (s : Source) : Bool := optNoAngle s.url

def linksWf (ls : List Link) : Bool := ls.all (fun l => decide (noAngle l.url))

/-- A well-formed item: every raw-inserted string (urls of the item, its
venue/source and links, and the unescaped description) is `<`/`>`-free.
Escaped fields (titles, authors, positions, types, notes) are
unconstrained. -/
def Item.wellFormed : Item → Bool
  | Item.blog b => decide (noAngle b.url) && b.source.wf && optNoAngle b.desc
  | Item.publication p => optNoAngle p.url && p.venue.wf && linksWf p.links
  | Item.press q => decide (noAngle q.url) && q.source.wf
  | Item.talks t => optNoAngle t.url && t.venue.wf && linksWf t.links
  | Item.writing w =>
      optNoAngle w.url
        && (match w.venue with | some v => v.wf | none => true)
        && linksWf w.links && decide (noAngle w.desc)
  | Item.code c => optNoAngle c.url && linksWf c.links && decide (noAngle c.desc)
  | Item.involvement i => i.venue.wf

theorem preserves_authorLi_list (lvl : Nat) (as : List Author) :
    PreservesStack (tagsOfLines (as.map (fun a => (lvl, authorLi a)))) := by
  induction as with
  | nil => exact preserves_nil
  | cons a rest ih =>
    rw [List.map_cons, tagsOfLines_cons, lineTags_authorLi]
    exact preserves_append (preserves_pair "li") ih

theorem preserves_authorsLines (as : List Author) (lvl : Nat) :
    PreservesStack (tagsOfLines (authorsLines as lvl)) := by
  unfold authorsLines
  split
  · exact preserves_nil
  · rw [tagsOfLines_append, tagsOfLines_cons, tagsOfLines_cons, tagsOfLines_nil]
    have h1 : lineTags ("<ol " ++ "class=" ++ sq ++ "authors" ++ sq ++ ">")
        = [HTag.open_ "ol"] := by decide
    have h2 : lineTags "</ol>" = [HTag.close "ol"] := by decide
    rw [h1, h2]
    intro stk
    rw [stepTags_append, stepTags_append]
    have hmid := preserves_authorLi_list (lvl + 1) as
    simp only [stepTags, Option.bind, List.append_nil]
    rw [hmid ("ol" :: stk)]
    simp [stepTags]

theorem preserves_coauthorsLines (as : List Author) (lvl : Nat) :
    PreservesStack (tagsOfLines (coauthorsLines as lvl)) := by
  unfold coauthorsLines
  by_cases h : (as.filter (fun a => a.abbr != some "@me")).length = 0
  · simp only [h, if_true]
    exact preserves_nil
  · simp only [h, if_false]
    rw [tagsOfLines_append, tagsOfLines_cons, tagsOfLines_cons, tagsOfLines_cons,
      tagsOfLines_cons, tagsOfLines_cons, tagsOfLines_nil]
    have h1 : lineTags ("<div " ++ "class=" ++ sq ++ "co-authors-sec" ++ sq ++ ">")
        = [HTag.open_ "div"] := by decide
    have h2 : lineTags ("<span " ++ "class=" ++ sq
        ++ "co-authors-desc" ++ sq ++ ">Written with:</span>")
        = [HTag.open_ "span", HTag.close "span"] := by decide
    have h3 : lineTags ("<ol " ++ "class=" ++ sq ++ "authors co-authors" ++ sq ++ ">")
        = [HTag.open_ "ol"] := by decide
    have h4 : lineTags "</ol>" = [HTag.close "ol"] := by decide
    have h5 : lineTags "</div>" = [HTag.close "div"] := by decide
    rw [h1, h2, h3, h4, h5]
    intro stk
    simp only [stepTags_append, List.append_assoc, List.nil_append, List.append_nil]
    simp [stepTags]
    rw [preserves_authorLi_list (lvl + 2) (as.filter (fun a => a.abbr != some "@me"))
      ("ol" :: "div" :: stk)]
    simp [stepTags]

theorem preserves_linkLine_list (lvl : Nat) (ls : List Link)
    (h : linksWf ls = true) :
    PreservesStack (tagsOfLines (ls.map (fun l => (lvl, linkLine l)))) := by
  induction ls with
  | nil => exact preserves_nil
  | cons l rest ih =>
    have hl : noAngle l.url := by
      have := (List.all_eq_true.mp h) l (by simp)
      simpa using this
    have hrest : linksWf rest = true := by
      apply List.all_eq_true.mpr
      intro x hx
      exact (List.all_eq_true.mp h) x (by simp [hx])
    rw [List.map_cons, tagsOfLines_cons, lineTags_linkLine l hl]
    refine preserves_append ?_ (ih hrest)
    have hsh : [HTag.open_ "span", HTag.open_ "a", HTag.close "a", HTag.close "span"]
        = [HTag.open_ "span"] ++ [HTag.open_ "a", HTag.close "a"] ++ [HTag.close "span"] := rfl
    rw [hsh]
    exact preserves_wrap "span" (preserves_pair "a")

theorem preserves_linksLines (ls : List Link) (lvl : Nat) (h : linksWf ls = true) :
    PreservesStack (tagsOfLines (linksLines ls lvl)) := by
  unfold linksLines
  split
  · exact preserves_nil
  · rw [tagsOfLines_append, tagsOfLines_cons, tagsOfLines_cons, tagsOfLines_nil]
    have h1 : lineTags ("<span " ++ "class=" ++ sq ++ "pub-links" ++ sq ++ ">")
        = [HTag.open_ "span"] := by decide
    have h2 : lineTags "</span>" = [HTag.close "span"] := by decide
    rw [h1, h2]
    intro stk
    simp only [stepTags_append, List.append_assoc, List.nil_append, List.append_nil]
    simp [stepTags]
    rw [preserves_linkLine_list (lvl + 1) ls h ("span" :: stk)]
    simp [stepTags]

theorem preserves_pubNote_list (lvl : Nat) (ns : List PubNote) :
    PreservesStack (tagsOfLines (ns.map (fun n => (lvl, n.to_html)))) := by
  induction ns with
  | nil => exact preserves_nil
  | cons n rest ih =>
    rw [List.map_cons, tagsOfLines_cons,
      lineTags_of_scansToS (scansToS_pubNote_html n)]
    exact preserves_append (preserves_pair "span") ih

theorem preserves_notesLinksLines (ns : List PubNote) (ls : List Link) (lvl : Nat)
    (h : linksWf ls = true) :
    PreservesStack (tagsOfLines (notesLinksLines ns ls lvl)) := by
  unfold notesLinksLines
  split
  · exact preserves_nil
  · rw [tagsOfLines_append, tagsOfLines_cons, tagsOfLines_append,
      tagsOfLines_cons, tagsOfLines_nil]
    have h1 : lineTags ("<span " ++ "class=" ++ sq ++ "pub-links" ++ sq ++ ">")
        = [HTag.open_ "span"] := by decide
    have h2 : lineTags "</span>" = [HTag.close "span"] := by decide
    rw [h1, h2]
    intro stk
    simp only [stepTags_append, List.append_assoc, List.nil_append, List.append_nil]
    simp [stepTags]
    rw [preserves_pubNote_list (lvl + 1) ns ("span" :: stk)]
    simp only [Option.some_bind]
    rw [preserves_linkLine_list (lvl + 1) ls h ("span" :: stk)]
    simp [stepTags]

/-- The url carried by a destination record. -/
def Dest.url : Dest → Option String
  | Dest.src s => s.url
  | Dest.ven v => v.url

def Dest.wf (d : Dest) : Bool := optNoAngle d.url

theorem scansToS_dest_html (d : Dest) (h : d.wf = true) :
    ScansToS d.to_html (optAnchorTags d.url) := by
  match d with
  | Dest.src s => exact scansToS_source_html s h
  | Dest.ven v => exact scansToS_venue_html v h

theorem preserves_optAnchorTags (o : Option String) :
    PreservesStack (optAnchorTags o) := by
  match o with
  | some _ => exact preserves_pair "a"
  | none => exact preserves_nil

theorem preserves_destLines (d : Dest) (date : DateVal) (lvl : Nat)
    (h : d.wf = true) :
    PreservesStack (tagsOfLines (destLines d date lvl)) := by
  unfold destLines
  rw [tagsOfLines_cons, tagsOfLines_cons, tagsOfLines_cons, tagsOfLines_cons,
    tagsOfLines_nil]
  have h1 : lineTags ("<span " ++ "class=" ++ sq ++ "venue" ++ sq ++ ">")
      = [HTag.open_ "span"] := by decide
  have h2 : lineTags "</span>" = [HTag.close "span"] := by decide
  rw [h1, h2, lineTags_of_scansToS (scansToS_dest_html d h),
    lineTags_of_scansToS (scansToS_date_html date)]
  intro stk
  simp only [stepTags_append, List.append_assoc, List.nil_append, List.append_nil]
  simp [stepTags]
  rw [preserves_optAnchorTags d.url ("span" :: stk)]
  simp [stepTags]

theorem preserves_dateLines (date : DateVal) (lvl : Nat) :
    PreservesStack (tagsOfLines (dateLines date lvl)) := by
  unfold dateLines
  rw [tagsOfLines_cons, tagsOfLines_cons, tagsOfLines_cons, tagsOfLines_nil]
  have h1 : lineTags ("<span " ++ "class=" ++ sq ++ "venue" ++ sq ++ ">")
      = [HTag.open_ "span"] := by decide
  have h2 : lineTags "</span>" = [HTag.close "span"] := by decide
  rw [h1, h2, lineTags_of_scansToS (scansToS_date_html date)]
  intro stk
  simp [stepTags_append, stepTags, Option.bind]

theorem preserves_typeMarkupLines (p : PressItem) (lvl : Nat) :
    PreservesStack (tagsOfLines (typeMarkupLines p lvl)) := by
  unfold typeMarkupLines
  rw [tagsOfLines_cons, tagsOfLines_cons, tagsOfLines_cons, tagsOfLines_nil]
  have h1 : lineTags ("<span " ++ "class=" ++ sq ++ "press-type" ++ sq ++ ">")
      = [HTag.open_ "span"] := by decide
  have h2 : lineTags "</span>" = [HTag.close "span"] := by decide
  rw [h1, h2, lineTags_of_scansToS (scansToS_pressPill p)]
  intro stk
  simp [stepTags_append, stepTags, Option.bind]

theorem preserves_blogLines (b : BlogItem) (lvl : Nat)
    (hu : noAngle b.url) (hs : b.source.wf = true) (hd : optNoAngle b.desc = true) :
    PreservesStack (tagsOfLines (blogLines b lvl)) := by
  have htitle := lineTags_of_scansToS (scansToS_title_html b.title (some b.url)
    (show optNoAngle (some b.url) = true from decide_eq_true hu))
  have hdna : noAngle (b.desc.getD "") := by
    match hb : b.desc with
    | some d => simpa using optNoAngle_some hd hb
    | none => exact (by decide : noAngle "")
  have hdesc : PreservesStack (tagsOfLines
      (if optTruthy b.desc then [(lvl + 1, descLine (b.desc.getD ""))] else [])) := by
    by_cases hc : optTruthy b.desc
    · rw [if_pos hc, tagsOfLines_cons, tagsOfLines_nil, lineTags_descLine _ hdna]
      simpa using preserves_pair "span"
    · rw [if_neg hc]
      exact preserves_nil
  have h1 : lineTags "<li>" = [HTag.open_ "li"] := by decide
  have h2 : lineTags "</li>" = [HTag.close "li"] := by decide
  have hsplit : tagsOfLines (blogLines b lvl)
      = [HTag.open_ "li"]
        ++ ([HTag.open_ (titleTagName (some b.url)), HTag.close (titleTagName (some b.url))]
           ++ tagsOfLines (coauthorsLines b.authors (lvl + 1))
           ++ tagsOfLines (destLines (Dest.src b.source) (DateVal.dt b.date) (lvl + 1))
           ++ tagsOfLines (if optTruthy b.desc then [(lvl + 1, descLine (b.desc.getD ""))] else []))
        ++ [HTag.close "li"] := by
    unfold blogLines
    simp [tagsOfLines_append, tagsOfLines_cons, tagsOfLines_nil, htitle, h1, h2,
      List.append_assoc]
  rw [hsplit]
  exact preserves_wrap "li"
    (preserves_append (preserves_append (preserves_append
      (preserves_pair _) (preserves_coauthorsLines b.authors (lvl + 1)))
      (preserves_destLines (Dest.src b.source) (DateVal.dt b.date) (lvl + 1) hs))
      hdesc)

theorem preserves_publicationLines (q : PublicationItem) (lvl : Nat)
    (hu : optNoAngle q.url = true) (hv : q.venue.wf = true) (hl : linksWf q.links = true) :
    PreservesStack (tagsOfLines (publicationLines q lvl)) := by
  have htitle := lineTags_of_scansToS (scansToS_title_html q.title q.url hu)
  have h1 : lineTags "<li>" = [HTag.open_ "li"] := by decide
  have h2 : lineTags "</li>" = [HTag.close "li"] := by decide
  have hsplit : tagsOfLines (publicationLines q lvl)
      = [HTag.open_ "li"]
        ++ ([HTag.open_ (titleTagName q.url), HTag.close (titleTagName q.url)]
           ++ tagsOfLines (authorsLines q.authors (lvl + 1))
           ++ tagsOfLines (destLines (Dest.ven q.venue) (DateVal.yr q.date) (lvl + 1))
           ++ tagsOfLines (notesLinksLines q.notes q.links (lvl + 1)))
        ++ [HTag.close "li"] := by
    unfold publicationLines
    simp [tagsOfLines_append, tagsOfLines_cons, tagsOfLines_nil, htitle, h1, h2,
      List.append_assoc]
  rw [hsplit]
  exact preserves_wrap "li"
    (preserves_append (preserves_append (preserves_append
      (preserves_pair _) (preserves_authorsLines q.authors (lvl + 1)))
      (preserves_destLines (Dest.ven q.venue) (DateVal.yr q.date) (lvl + 1) hv))
      (preserves_notesLinksLines q.notes q.links (lvl + 1) hl))

theorem preserves_pressLines (q : PressItem) (lvl : Nat)
    (hu : noAngle q.url) (hs : q.source.wf = true) :
    PreservesStack (tagsOfLines (pressLines q lvl)) := by
  have htitle := lineTags_of_scansToS (scansToS_title_html q.title (some q.url)
    (show optNoAngle (some q.url) = true from decide_eq_true hu))
  have h1 : lineTags "<li>" = [HTag.open_ "li"] := by decide
  have h2 : lineTags "</li>" = [HTag.close "li"] := by decide
  have hsplit : tagsOfLines (pressLines q lvl)
      = [HTag.open_ "li"]
        ++ ([HTag.open_ (titleTagName (some q.url)), HTag.close (titleTagName (some q.url))]
           ++ tagsOfLines (typeMarkupLines q (lvl + 1))
           ++ tagsOfLines (destLines (Dest.src q.source) (DateVal.dt q.date) (lvl + 1)))
        ++ [HTag.close "li"] := by
    unfold pressLines
    simp [tagsOfLines_append, tagsOfLines_cons, tagsOfLines_nil, htitle, h1, h2,
      List.append_assoc]
  rw [hsplit]
  exact preserves_wrap "li"
    (preserves_append (preserves_append
      (preserves_pair _) (preserves_typeMarkupLines q (lvl + 1)))
      (preserves_destLines (Dest.src q.source) (DateVal.dt q.date) (lvl + 1) hs))

theorem preserves_talksLines (t : TalksItem) (lvl : Nat)
    (hu : optNoAngle t.url = true) (hv : t.venue.wf = true) (hl : linksWf t.links = true) :
    PreservesStack (tagsOfLines (talksLines t lvl)) := by
  have htitle := lineTags_of_scansToS (scansToS_title_html t.title t.url hu)
  have htype := lineTags_of_scansToS (scansToS_talkType_html t.type)
  have h1 : lineTags "<li>" = [HTag.open_ "li"] := by decide
  have h2 : lineTags "</li>" = [HTag.close "li"] := by decide
  have hauth : PreservesStack (tagsOfLines
      (if 0 < t.authors.length then authorsLines t.authors (lvl + 1) else [])) := by
    by_cases hc : 0 < t.authors.length
    · rw [if_pos hc]
      exact preserves_authorsLines t.authors (lvl + 1)
    · rw [if_neg hc]
      exact preserves_nil
  have hsplit : tagsOfLines (talksLines t lvl)
      = [HTag.open_ "li"]
        ++ ([HTag.open_ (titleTagName t.url), HTag.close (titleTagName t.url)]
           ++ tagsOfLines (if 0 < t.authors.length then authorsLines t.authors (lvl + 1) else [])
           ++ tagsOfLines (destLines (Dest.ven t.venue) (DateVal.yr t.date) (lvl + 1))
           ++ ([HTag.open_ "span", HTag.close "span"]
              ++ tagsOfLines (linksLines t.links (lvl + 1))))
        ++ [HTag.close "li"] := by
    unfold talksLines
    simp [tagsOfLines_append, tagsOfLines_cons, tagsOfLines_nil, htitle, htype, h1, h2,
      List.append_assoc]
  rw [hsplit]
  exact preserves_wrap "li"
    (preserves_append (preserves_append (preserves_append
      (preserves_pair _) hauth)
      (preserves_destLines (Dest.ven t.venue) (DateVal.yr t.date) (lvl + 1) hv))
      (preserves_append (preserves_pair "span") (preserves_linksLines t.links (lvl + 1) hl)))

theorem preserves_writingLines (w : WritingItem) (lvl : Nat)
    (hu : optNoAngle w.url = true)
    (hv : (match w.venue with | some v => v.wf | none => true) = true)
    (hl : linksWf w.links = true) (hd : noAngle w.desc) :
    PreservesStack (tagsOfLines (writingLines w lvl)) := by
  have htitle := lineTags_of_scansToS (scansToS_title_html w.title w.url hu)
  have h1 : lineTags "<li>" = [HTag.open_ "li"] := by decide
  have h2 : lineTags "</li>" = [HTag.close "li"] := by decide
  have hven : PreservesStack (tagsOfLines
      (match w.venue with
       | some v => destLines (Dest.ven v) (DateVal.yr w.date) (lvl + 1)
       | none => dateLines (DateVal.yr w.date) (lvl + 1))) := by
    match hw : w.venue with
    | some v =>
        rw [hw] at hv
        exact preserves_destLines (Dest.ven v) (DateVal.yr w.date) (lvl + 1) hv
    | none => exact preserves_dateLines (DateVal.yr w.date) (lvl + 1)
  have hsplit : tagsOfLines (writingLines w lvl)
      = [HTag.open_ "li"]
        ++ ([HTag.open_ (titleTagName w.url), HTag.close (titleTagName w.url)]
           ++ tagsOfLines (authorsLines w.authors (lvl + 1))
           ++ tagsOfLines (match w.venue with
              | some v => destLines (Dest.ven v) (DateVal.yr w.date) (lvl + 1)
              | none => dateLines (DateVal.yr w.date) (lvl + 1))
           ++ tagsOfLines (linksLines w.links (lvl + 1))
           ++ [HTag.open_ "span", HTag.close "span"])
        ++ [HTag.close "li"] := by
    unfold writingLines
    simp [tagsOfLines_append, tagsOfLines_cons, tagsOfLines_nil, htitle, h1, h2,
      lineTags_descLine w.desc hd, List.append_assoc]
  rw [hsplit]
  exact preserves_wrap "li"
    (preserves_append (preserves_append (preserves_append (preserves_append
      (preserves_pair _) (preserves_authorsLines w.authors (lvl + 1)))
      hven)
      (preserves_linksLines w.links (lvl + 1) hl))
      (preserves_pair "span"))

theorem preserves_codeLines (c : CodeItem) (lvl : Nat)
    (hu : optNoAngle c.url = true) (hl : linksWf c.links = true) (hd : noAngle c.desc) :
    PreservesStack (tagsOfLines (codeLines c lvl)) := by
  have htitle := lineTags_of_scansToS (scansToS_title_html c.title c.url hu)
  have h1 : lineTags "<li>" = [HTag.open_ "li"] := by decide
  have h2 : lineTags "</li>" = [HTag.close "li"] := by decide
  have hsplit : tagsOfLines (codeLines c lvl)
      = [HTag.open_ "li"]
        ++ ([HTag.open_ (titleTagName c.url), HTag.close (titleTagName c.url)]
           ++ tagsOfLines (dateLines (DateVal.yr c.date) (lvl + 1))
           ++ tagsOfLines (linksLines c.links (lvl + 1))
           ++ [HTag.open_ "span", HTag.close "span"])
        ++ [HTag.close "li"] := by
    unfold codeLines
    simp [tagsOfLines_append, tagsOfLines_cons, tagsOfLines_nil, htitle, h1, h2,
      lineTags_descLine c.desc hd, List.append_assoc]
  rw [hsplit]
  exact preserves_wrap "li"
    (preserves_append (preserves_append (preserves_append
      (preserves_pair _) (preserves_dateLines (DateVal.yr c.date) (lvl + 1)))
      (preserves_linksLines c.links (lvl + 1) hl))
      (preserves_pair "span"))

theorem preserves_involvementLines (i : InvolvementItem) (p : Option Item) (lvl : Nat)
    (hv : i.venue.wf = true) :
    PreservesStack (tagsOfLines (involvementLines i p lvl)) := by
  unfold involvementLines
  have h1 : lineTags "<tr>" = [HTag.open_ "tr"] := by decide
  have h2 : lineTags "</tr>" = [HTag.close "tr"] := by decide
  have hhead : PreservesStack (tagsOfLines
      (if needYearHeader i p then
        [(lvl, "<tr>"), (lvl + 1, involvementHeaderTh i.date), (lvl, "</tr>")]
       else [])) := by
    by_cases hc : needYearHeader i p
    · rw [if_pos hc, tagsOfLines_cons, tagsOfLines_cons, tagsOfLines_cons, tagsOfLines_nil,
        h1, h2, lineTags_headerTh]
      have hsh : [HTag.open_ "tr"] ++ ([HTag.open_ "th", HTag.close "th"]
          ++ ([HTag.close "tr"] ++ []))
          = [HTag.open_ "tr"] ++ [HTag.open_ "th", HTag.close "th"] ++ [HTag.close "tr"] := by
        simp
      rw [hsh]
      exact preserves_wrap "tr" (preserves_pair "th")
    · rw [if_neg hc]
      exact preserves_nil
  rw [tagsOfLines_append]
  refine preserves_append hhead ?_
  rw [tagsOfLines_cons, tagsOfLines_cons, tagsOfLines_cons, tagsOfLines_cons, tagsOfLines_nil,
    h1, h2, lineTags_tdVenue i.venue hv, lineTags_tdPosition]
  have hsh2 : [HTag.open_ "tr"] ++ (([HTag.open_ "td"] ++ optAnchorTags i.venue.url
      ++ [HTag.close "td"]) ++ ([HTag.open_ "td", HTag.close "td"] ++ ([HTag.close "tr"] ++ [])))
      = [HTag.open_ "tr"] ++ (([HTag.open_ "td"] ++ optAnchorTags i.venue.url ++ [HTag.close "td"])
        ++ [HTag.open_ "td", HTag.close "td"]) ++ [HTag.close "tr"] := by
    simp
  rw [hsh2]
  exact preserves_wrap "tr"
    (preserves_append
      (preserves_wrap "td" (preserves_optAnchorTags i.venue.url))
      (preserves_pair "td"))

/-- C1: for every well-formed item of any variant (Publication, Blog,
Press, Talk, Writing, Code, Involvement) and on every branch, rendering
via `add_html` leaves the buffer indentation level equal to its starting
level, appends exactly the item fragment, and that fragment markup is
balanced (every opened element tag is matched by its close). -/
theorem C1_add_html_level_and_balanced (it : Item) (m : Indenter) (p : Option Item)
    (h : it.wellFormed = true) :
    (it.add_html m p).level = m.level
      ∧ (it.add_html m p).lines = m.lines ++ it.fragLines p m.level
      ∧ Balanced (tagsOfLines (it.fragLines p m.level)) := by
  refine ⟨by rw [add_html_eq], by rw [add_html_eq], balanced_of_preserves ?_⟩
  cases it with
  | blog b =>
      simp only [Item.wellFormed, Bool.and_eq_true, decide_eq_true_eq] at h
      exact preserves_blogLines b _ h.1.1 h.1.2 h.2
  | publication q =>
      simp only [Item.wellFormed, Bool.and_eq_true] at h
      exact preserves_publicationLines q _ h.1.1 h.1.2 h.2
  | press q =>
      simp only [Item.wellFormed, Bool.and_eq_true, decide_eq_true_eq] at h
      exact preserves_pressLines q _ h.1 h.2
  | talks t =>
      simp only [Item.wellFormed, Bool.and_eq_true] at h
      exact preserves_talksLines t _ h.1.1 h.1.2 h.2
  | writing w =>
      simp only [Item.wellFormed, Bool.and_eq_true, decide_eq_true_eq] at h
      exact preserves_writingLines w _ h.1.1.1 h.1.1.2 h.1.2 h.2
  | code c =>
      simp only [Item.wellFormed, Bool.and_eq_true, decide_eq_true_eq] at h
      exact preserves_codeLines c _ h.1.1 h.1.2 h.2
  | involvement i =>
      simp only [Item.wellFormed] at h
      exact preserves_involvementLines i p _ h

/-- C1 witness: a concrete publication item rendered at level 3. -/
theorem C1_add_html_level_and_balanced_witness :
    (Item.publication (PublicationItem.mk 2020 "Paper A" (some "papers/a.pdf")
        [Author.mk "Jane Doe" none] [] (Venue.mk "USENIX Security" none) [])).wellFormed = true
      ∧ (((Item.publication (PublicationItem.mk 2020 "Paper A" (some "papers/a.pdf")
            [Author.mk "Jane Doe" none] [] (Venue.mk "USENIX Security" none) [])).add_html
            (Indenter.mk 3 []) none).level = (Indenter.mk 3 []).level
        ∧ ((Item.publication (PublicationItem.mk 2020 "Paper A" (some "papers/a.pdf")
            [Author.mk "Jane Doe" none] [] (Venue.mk "USENIX Security" none) [])).add_html
            (Indenter.mk 3 []) none).lines
          = (Indenter.mk 3 []).lines
            ++ (Item.publication (PublicationItem.mk 2020 "Paper A" (some "papers/a.pdf")
                [Author.mk "Jane Doe" none] [] (Venue.mk "USENIX Security" none) [])).fragLines
              none (Indenter.mk 3 []).level
        ∧ Balanced (tagsOfLines ((Item.publication (PublicationItem.mk 2020 "Paper A"
            (some "papers/a.pdf") [Author.mk "Jane Doe" none] []
            (Venue.mk "USENIX Security" none) [])).fragLines none (Indenter.mk 3 []).level))) :=
  ⟨by decide, C1_add_html_level_and_balanced
    (Item.publication (PublicationItem.mk 2020 "Paper A" (some "papers/a.pdf")
      [Author.mk "Jane Doe" none] [] (Venue.mk "USENIX Security" none) []))
    (Indenter.mk 3 []) none (by decide)⟩

theorem mem_insertDesc {α δ : Type _} [LinearOrder δ] (key : α → δ) (x z : α) :
    ∀ l : List α, z ∈ insertDesc key x l ↔ z = x ∨ z ∈ l := by
  intro l
  induction l with
  | nil => simp [insertDesc]
  | cons y ys ih =>
    unfold insertDesc
    split
    · simp
    · simp only [List.mem_cons, ih]
      tauto

theorem pairwise_insertDesc {α δ : Type _} [LinearOrder δ] (key : α → δ) (x : α) :
    ∀ l : List α, List.Pairwise (fun a b => key b ≤ key a) l →
      List.Pairwise (fun a b => key b ≤ key a) (insertDesc key x l) := by
  intro l
  induction l with
  | nil => intro _; simp [insertDesc]
  | cons y ys ih =>
    intro h
    rw [List.pairwise_cons] at h
    unfold insertDesc
    split
    · rename_i hle
      rw [List.pairwise_cons]
      constructor
      · intro z hz
        rcases List.mem_cons.mp hz with rfl | hz2
        · exact hle
        · exact le_trans (h.1 z hz2) hle
      · exact List.pairwise_cons.mpr h
    · rename_i hgt
      push_neg at hgt
      rw [List.pairwise_cons]
      constructor
      · intro z hz
        rcases (mem_insertDesc key x z ys).mp hz with rfl | hz2
        · exact le_of_lt hgt
        · exact h.1 z hz2
      · exact ih h.2

/-- `BaseItem.sort` produces a descending (by key) list. -/
theorem sortItems_sorted {α δ : Type _} [LinearOrder δ] (key : α → δ) (l : List α) :
    List.Pairwise (fun a b => key b ≤ key a) (sortItems key l) := by
  induction l with
  | nil => simp [sortItems]
  | cons x xs ih =>
    have h : sortItems key (x :: xs) = insertDesc key x (sortItems key xs) := rfl
    rw [h]
    exact pairwise_insertDesc key x _ ih

theorem filter_insertDesc {α δ : Type _} [LinearOrder δ] (key : α → δ) (x : α) (k : δ) :
    ∀ l : List α,
      (insertDesc key x l).filter (fun a => decide (key a = k))
        = if key x = k then x :: l.filter (fun a => decide (key a = k))
          else l.filter (fun a => decide (key a = k)) := by
  intro l
  induction l with
  | nil =>
    simp only [insertDesc, List.filter]
    by_cases hx : key x = k <;> simp [hx]
  | cons y ys ih =>
    unfold insertDesc
    split
    · rename_i hle
      by_cases hx : key x = k <;> simp [List.filter, hx]
    · rename_i hgt
      push_neg at hgt
      by_cases hy : key y = k
      · have hx : ¬key x = k := by
          intro hx
          rw [hx, ← hy] at hgt
          exact lt_irrefl _ hgt
        simp [List.filter, hy, hx, ih, hx]
      · by_cases hx : key x = k <;> simp [List.filter, hy, hx, ih]

/-- `BaseItem.sort` is stable: for every key value, the subsequence of
elements with that key is unchanged. -/
theorem sortItems_stable {α δ : Type _} [LinearOrder δ] (key : α → δ) (l : List α) (k : δ) :
    (sortItems key l).filter (fun a => decide (key a = k))
      = l.filter (fun a => decide (key a = k)) := by
  induction l with
  | nil => rfl
  | cons x xs ih =>
    have h : sortItems key (x :: xs) = insertDesc key x (sortItems key xs) := rfl
    rw [h, filter_insertDesc key x k (sortItems key xs), ih]
    by_cases hx : key x = k <;> simp [List.filter, hx]

theorem perm_insertDesc {α δ : Type _} [LinearOrder δ] (key : α → δ) (x : α) :
    ∀ l : List α, (insertDesc key x l).Perm (x :: l) := by
  intro l
  induction l with
  | nil => simp [insertDesc]
  | cons y ys ih =>
    unfold insertDesc
    split
    · exact List.Perm.refl _
    · exact List.Perm.trans (List.Perm.cons y ih) (List.Perm.swap x y ys)

/-- `BaseItem.sort` permutes its input. -/
theorem sortItems_perm {α δ : Type _} [LinearOrder δ] (key : α → δ) (l : List α) :
    (sortItems key l).Perm l := by
  induction l with
  | nil => exact List.Perm.refl _
  | cons x xs ih =>
    have h : sortItems key (x :: xs) = insertDesc key x (sortItems key xs) := rfl
    rw [h]
    exact (perm_insertDesc key x _).trans (List.Perm.cons x ih)

/-- The lines of the threaded rendering loop: each item appended in order,
threading the previous item. -/
def threadLines : List Item → Option Item → Nat → List (Nat × String)
  | [], _, _ => []
  | it :: rest, p, lvl => it.fragLines p lvl ++ threadLines rest (some it) lvl

theorem renderSeq_eq : ∀ (items : List Item) (p : Option Item) (m : Indenter),
    renderSeq items p m = ⟨m.level, m.lines ++ threadLines items p m.level⟩ := by
  intro items
  induction items with
  | nil => intro p m; simp [renderSeq, threadLines]
  | cons it rest ih =>
    intro p m
    have h : renderSeq (it :: rest) p m = renderSeq rest (some it) (it.add_html m p) := rfl
    rw [h, ih, add_html_eq]
    simp [threadLines]

/-- The container line of `BaseItem.add_list_html`. -/
def ulOpen (html_classes : List String) : String :=
  "<ul " ++ "class=" ++ sq ++ String.intercalate " " html_classes ++ sq ++ ">"

theorem add_list_html_eq (html_classes : List String) (items : List Item) (m : Indenter) :
    add_list_html html_classes items m
      = ⟨m.level, m.lines ++ ((m.level, ulOpen html_classes)
          :: threadLines items none (m.level + 1)) ++ [(m.level, "</ul>")]⟩ := by
  have h : add_list_html html_classes items m
      = ((renderSeq items none ((m.add ("<ul " ++ "class=" ++ sq
          ++ String.intercalate " " html_classes ++ sq ++ ">")).up)).down).add "</ul>" := rfl
  rw [h, renderSeq_eq]
  unfold ulOpen
  simp [Indenter.add, Indenter.up, Indenter.down]

theorem involvement_add_list_html_eq (items : List Item) (m : Indenter) :
    InvolvementItem.add_list_html items m = ⟨m.level, m.lines ++ threadLines items none m.level⟩ := by
  unfold InvolvementItem.add_list_html
  rw [renderSeq_eq]

/-- `PublicationItem` inherits `html_classes` from `ListItem`. -/
def PublicationItem.html_classes : List String := ListItem.html_classes

/-- C2 counterexample: `add_list_html` does not sort — rendering two
publications given in ascending-year order differs from rendering them in
descending-year order — and the Involvement override emits its rows with
no wrapping container element. -/
theorem C2_counterexample :
    add_list_html PublicationItem.html_classes
        [Item.publication (PublicationItem.mk 2020 "A" none [] [] (Venue.mk "V" none) []),
         Item.publication (PublicationItem.mk 2021 "B" none [] [] (Venue.mk "V" none) [])]
        (Indenter.mk 0 [])
      ≠ add_list_html PublicationItem.html_classes
        [Item.publication (PublicationItem.mk 2021 "B" none [] [] (Venue.mk "V" none) []),
         Item.publication (PublicationItem.mk 2020 "A" none [] [] (Venue.mk "V" none) [])]
        (Indenter.mk 0 [])
    ∧ (InvolvementItem.add_list_html
        [Item.involvement (InvolvementItem.mk (Venue.mk "W" none) "Chair" 2020)]
        (Indenter.mk 0 [])).lines
      = [(0, "<tr>"), (1, involvementHeaderTh 2020), (0, "</tr>"),
         (0, "<tr>"), (1, involvementTdVenue (Venue.mk "W" none)),
         (1, involvementTdPosition "Chair"), (0, "</tr>")] :=
  ⟨by decide, by decide⟩

/-- C2 amended: `BaseItem.sort` is a stable descending sort by date key
(descending order, per-key subsequences preserved, a permutation), while
`add_list_html` renders the given items in their given order, threading
the previous-item reference, wrapped in one `ul` container carrying the
variant CSS classes — except the Involvement override, which emits its
rows with no container. -/
theorem C2_sort_and_list_render :
    (∀ (α δ : Type) [LinearOrder δ] (key : α → δ) (l : List α),
        List.Pairwise (fun a b => key b ≤ key a) (sortItems key l))
      ∧ (∀ (α δ : Type) [LinearOrder δ] (key : α → δ) (l : List α) (k : δ),
          (sortItems key l).filter (fun a => decide (key a = k))
            = l.filter (fun a => decide (key a = k)))
      ∧ (∀ (α δ : Type) [LinearOrder δ] (key : α → δ) (l : List α),
          (sortItems key l).Perm l)
      ∧ (∀ (html_classes : List String) (items : List Item) (m : Indenter),
          add_list_html html_classes items m
            = ⟨m.level, m.lines ++ ((m.level, ulOpen html_classes)
                :: threadLines items none (m.level + 1)) ++ [(m.level, "</ul>")]⟩)
      ∧ (∀ (items : List Item) (m : Indenter),
          InvolvementItem.add_list_html items m
            = ⟨m.level, m.lines ++ threadLines items none m.level⟩) :=
  ⟨fun _ _ _ key l => sortItems_sorted key l,
   fun _ _ _ key l k => sortItems_stable key l k,
   fun _ _ _ key l => sortItems_perm key l,
   add_list_html_eq,
   involvement_add_list_html_eq⟩

/-- Is this item of the Involvement variant? -/
def Item.isInvolvement : Item → Bool
  | Item.involvement _ => true
  | _ => false

/-- C9: only the Involvement variant consults the previous-item
reference; an Involvement item emits a year-header row exactly when there
is no previous item or the year differs from the previous item date,
so consecutive same-year items share one header. -/
theorem C9_prior_item_header :
    (∀ (it : Item) (m : Indenter) (p p2 : Option Item),
        it.isInvolvement = false → it.add_html m p = it.add_html m p2)
      ∧ (∀ (i : InvolvementItem) (m : Indenter),
          ((Item.involvement i).add_html m none).lines
            = m.lines ++ ([(m.level, "<tr>"), (m.level + 1, involvementHeaderTh i.date),
                (m.level, "</tr>")]
              ++ [(m.level, "<tr>"), (m.level + 1, involvementTdVenue i.venue),
                  (m.level + 1, involvementTdPosition i.position), (m.level, "</tr>")]))
      ∧ (∀ (i : InvolvementItem) (m : Indenter) (q : Item),
          DateVal.yr i.date ≠ q.dateVal →
            ((Item.involvement i).add_html m (some q)).lines
              = m.lines ++ ([(m.level, "<tr>"), (m.level + 1, involvementHeaderTh i.date),
                  (m.level, "</tr>")]
                ++ [(m.level, "<tr>"), (m.level + 1, involvementTdVenue i.venue),
                    (m.level + 1, involvementTdPosition i.position), (m.level, "</tr>")]))
      ∧ (∀ (i : InvolvementItem) (m : Indenter) (q : Item),
          DateVal.yr i.date = q.dateVal →
            ((Item.involvement i).add_html m (some q)).lines
              = m.lines ++ [(m.level, "<tr>"), (m.level + 1, involvementTdVenue i.venue),
                  (m.level + 1, involvementTdPosition i.position), (m.level, "</tr>")]) := by
  refine ⟨?_, ?_, ?_, ?_⟩
  · intro it m p p2 h
    cases it with
    | involvement i => simp [Item.isInvolvement] at h
    | blog b => rfl
    | publication q => rfl
    | press q => rfl
    | talks t => rfl
    | writing w => rfl
    | code c => rfl
  · intro i m
    have h : (Item.involvement i).add_html m none = i.add_html m none := rfl
    rw [h, involvement_add_html_eq]
    simp [involvementLines, needYearHeader]
  · intro i m q hne
    have h : (Item.involvement i).add_html m (some q) = i.add_html m (some q) := rfl
    rw [h, involvement_add_html_eq]
    simp [involvementLines, needYearHeader, bne_iff_ne, hne]
  · intro i m q heq
    have h : (Item.involvement i).add_html m (some q) = i.add_html m (some q) := rfl
    rw [h, involvement_add_html_eq]
    simp [involvementLines, needYearHeader, heq]

/-- C9 witness: a blog item ignores the prior reference; an involvement
item after a different year emits a header, after the same year none. -/
theorem C9_prior_item_header_witness :
    ((Item.blog (BlogItem.mk (DateTime.mk 2020 1 2 0 0 0) "T" "u" (Source.mk "S" none none)
        [] none)).add_html (Indenter.mk 0 [])
        (some (Item.involvement (InvolvementItem.mk (Venue.mk "V" none) "P" 2019)))
      = (Item.blog (BlogItem.mk (DateTime.mk 2020 1 2 0 0 0) "T" "u" (Source.mk "S" none none)
        [] none)).add_html (Indenter.mk 0 []) none)
    ∧ ((Item.involvement (InvolvementItem.mk (Venue.mk "V" none) "P" 2020)).add_html
        (Indenter.mk 0 [])
        (some (Item.involvement (InvolvementItem.mk (Venue.mk "W" none) "Q" 2019)))).lines
      = (Indenter.mk 0 []).lines
        ++ ([(0, "<tr>"), (1, involvementHeaderTh 2020), (0, "</tr>")]
          ++ [(0, "<tr>"), (1, involvementTdVenue (Venue.mk "V" none)),
              (1, involvementTdPosition "P"), (0, "</tr>")])
    ∧ ((Item.involvement (InvolvementItem.mk (Venue.mk "V" none) "P" 2020)).add_html
        (Indenter.mk 0 [])
        (some (Item.involvement (InvolvementItem.mk (Venue.mk "W" none) "Q" 2020)))).lines
      = (Indenter.mk 0 []).lines
        ++ [(0, "<tr>"), (1, involvementTdVenue (Venue.mk "V" none)),
            (1, involvementTdPosition "P"), (0, "</tr>")] :=
  ⟨C9_prior_item_header.1 _ (Indenter.mk 0 []) _ none (by decide),
   C9_prior_item_header.2.2.1 (InvolvementItem.mk (Venue.mk "V" none) "P" 2020)
     (Indenter.mk 0 [])
     (Item.involvement (InvolvementItem.mk (Venue.mk "W" none) "Q" 2019)) (by decide),
   C9_prior_item_header.2.2.2 (InvolvementItem.mk (Venue.mk "V" none) "P" 2020)
     (Indenter.mk 0 [])
     (Item.involvement (InvolvementItem.mk (Venue.mk "W" none) "Q" 2020)) (by decide)⟩

/-- C3 counterexample: a literal (non-`@`) source string is not the
identity — `source_from_json` always resolves it through the
`abbrs.sources` table, and fails with a missing-key error when absent. -/
theorem C3_counterexample :
    source_from_json (JVal.obj [("source", JVal.str "The Guardian")])
        (JVal.obj [("abbrs", JVal.obj [("sources", JVal.obj [])])])
      = Except.error (Err.keyError "The Guardian") := rfl

/-- C3 amended: literal (non-`@`) nonempty author and venue strings are
the identity — the string becomes the record display title unchanged, no
lookup performed — while the empty string instead aborts construction
with an index error (`author[0]` / `raw_venue[0]` on `""`); a source
string is always used as a key into the `abbrs.sources` table, whether
or not it begins with `@`. -/
theorem C3_literal_identity :
    (∀ (name : String) (all_data : JVal) (c : Char) (cs : List Char),
        name.data = c :: cs → c ≠ '@' →
          authors_from_json (JVal.obj [("authors", JVal.arr [JVal.str name])]) all_data
            = Except.ok [Author.mk name none])
      ∧ (∀ (v : String) (all_data : JVal) (c : Char) (cs : List Char),
          v.data = c :: cs → c ≠ '@' →
            venue_from_json (JVal.obj [("venue", JVal.str v)]) all_data
              = Except.ok (Venue.mk v none))
      ∧ (∀ all_data : JVal,
          authors_from_json (JVal.obj [("authors", JVal.arr [JVal.str ""])]) all_data
            = Except.error (Err.indexError "string index out of range"))
      ∧ (∀ all_data : JVal,
          venue_from_json (JVal.obj [("venue", JVal.str "")]) all_data
            = Except.error (Err.indexError "string index out of range"))
      ∧ (∀ (s : String) (sources : List (String × JVal)),
          assoc sources s = none →
            source_from_json (JVal.obj [("source", JVal.str s)])
                (JVal.obj [("abbrs", JVal.obj [("sources", JVal.obj sources)])])
              = Except.error (Err.keyError s)) := by
  refine ⟨?_, ?_, ?_, ?_, ?_⟩
  · intro name all_data c cs hd hc
    simp [authors_from_json, assoc, authorsGo, hd, hc, bind, Except.bind]
  · intro v all_data c cs hd hc
    simp [venue_from_json, jget, assoc, jstr, bind, Except.bind, hd, hc]
  · intro all_data
    rfl
  · intro all_data
    rfl
  · intro s sources h
    simp [source_from_json, jget, assoc, jstr, bind, Except.bind, h]

/-- C3 witness: literal nonempty author and venue pass through unchanged;
the empty string aborts with an index error; a source missing from the
table errors. -/
theorem C3_literal_identity_witness :
    authors_from_json (JVal.obj [("authors", JVal.arr [JVal.str "Jane Doe"])]) (JVal.obj [])
      = Except.ok [Author.mk "Jane Doe" none]
    ∧ venue_from_json (JVal.obj [("venue", JVal.str "USENIX Security")]) (JVal.obj [])
      = Except.ok (Venue.mk "USENIX Security" none)
    ∧ authors_from_json (JVal.obj [("authors", JVal.arr [JVal.str ""])]) (JVal.obj [])
      = Except.error (Err.indexError "string index out of range")
    ∧ venue_from_json (JVal.obj [("venue", JVal.str "")]) (JVal.obj [])
      = Except.error (Err.indexError "string index out of range")
    ∧ source_from_json (JVal.obj [("source", JVal.str "Wired")])
        (JVal.obj [("abbrs", JVal.obj [("sources", JVal.obj [])])])
      = Except.error (Err.keyError "Wired") :=
  ⟨C3_literal_identity.1 "Jane Doe" (JVal.obj []) 'J' "ane Doe".data rfl (by decide),
   C3_literal_identity.2.1 "USENIX Security" (JVal.obj []) 'U' "SENIX Security".data rfl
     (by decide),
   C3_literal_identity.2.2.1 (JVal.obj []),
   C3_literal_identity.2.2.2.1 (JVal.obj []),
   C3_literal_identity.2.2.2.2 "Wired" [] rfl⟩

/-- C4 counterexample: the Talk item `type` is not validated against any
enumeration — an arbitrary literal string is accepted as the talk type at
construction. -/
theorem C4_counterexample :
    talk_type_from_json (JVal.obj [("type", JVal.str "banana")]) (JVal.obj [])
      = Except.ok (TalkType.mk "banana" none) := rfl

/-- C4 amended: the Press `type` field is validated at construction
(`PressItem.__init__`) against the fixed enumeration
{news, podcast, radio, video}: a value outside raises Invalid Value then
and there, and any constructed press item type belongs to the
enumeration (making the render-time table lookup in `add_type_markup` total);
any nonempty literal Talk `type` string is accepted unvalidated as the
label, while the empty string aborts construction with an index error
(`raw_talk_type[0]` on `""`) rather than an Invalid Value check. -/
theorem C4_press_type_validation :
    (∀ (d : DateTime) (t u : String) (s : Source) (ty : String),
        (assocS ITEM_TYPE_CLASSES ty).isNone = true →
          PressItem.init d t u s ty
            = Except.error (Err.valueError (ty ++ " is not a valid PressItem type")))
      ∧ (∀ (d : DateTime) (t u : String) (s : Source) (ty : String),
          (assocS ITEM_TYPE_CLASSES ty).isNone = false →
            PressItem.init d t u s ty = Except.ok (PressItem.mk d t u s ty))
      ∧ (∀ (d : DateTime) (t u : String) (s : Source) (ty : String) (it : PressItem),
          PressItem.init d t u s ty = Except.ok it →
            (assocS ITEM_TYPE_CLASSES it.type).isSome = true)
      ∧ (∀ (s : String) (all_data : JVal) (c : Char) (cs : List Char),
          s.data = c :: cs → c ≠ '@' →
            talk_type_from_json (JVal.obj [("type", JVal.str s)]) all_data
              = Except.ok (TalkType.mk s none))
      ∧ (∀ all_data : JVal,
          talk_type_from_json (JVal.obj [("type", JVal.str "")]) all_data
            = Except.error (Err.indexError "string index out of range")) := by
  refine ⟨?_, ?_, ?_, ?_, ?_⟩
  · intro d t u s ty h
    unfold PressItem.init
    rw [if_pos h]
  · intro d t u s ty h
    unfold PressItem.init
    simp [h]
  · intro d t u s ty it h
    unfold PressItem.init at h
    split at h
    · cases h
    · rename_i hn
      cases h
      simpa [Option.isSome_iff_ne_none] using hn
  · intro s all_data c cs hd hc
    simp [talk_type_from_json, jget, assoc, jstr, bind, Except.bind, hd, hc]
  · intro all_data
    rfl

/-- C4 witness: "news" is accepted, "zine" is rejected at construction,
and a constructed item type is in the enumeration; a Talk type "fireside"
is accepted unvalidated while the empty Talk type aborts with an index
error. -/
theorem C4_press_type_validation_witness :
    PressItem.init (DateTime.mk 2020 1 2 0 0 0) "T" "u" (Source.mk "S" none none) "zine"
      = Except.error (Err.valueError ("zine is not a valid PressItem type"))
    ∧ PressItem.init (DateTime.mk 2020 1 2 0 0 0) "T" "u" (Source.mk "S" none none) "news"
      = Except.ok (PressItem.mk (DateTime.mk 2020 1 2 0 0 0) "T" "u" (Source.mk "S" none none)
          "news")
    ∧ (assocS ITEM_TYPE_CLASSES (PressItem.mk (DateTime.mk 2020 1 2 0 0 0) "T" "u"
        (Source.mk "S" none none) "news").type).isSome = true
    ∧ talk_type_from_json (JVal.obj [("type", JVal.str "fireside")]) (JVal.obj [])
      = Except.ok (TalkType.mk "fireside" none)
    ∧ talk_type_from_json (JVal.obj [("type", JVal.str "")]) (JVal.obj [])
      = Except.error (Err.indexError "string index out of range") :=
  ⟨C4_press_type_validation.1 (DateTime.mk 2020 1 2 0 0 0) "T" "u" (Source.mk "S" none none)
     "zine" (by decide),
   C4_press_type_validation.2.1 (DateTime.mk 2020 1 2 0 0 0) "T" "u" (Source.mk "S" none none)
     "news" (by decide),
   C4_press_type_validation.2.2.1 (DateTime.mk 2020 1 2 0 0 0) "T" "u"
     (Source.mk "S" none none) "news" _ (by rfl),
   C4_press_type_validation.2.2.2.1 "fireside" (JVal.obj []) 'f' "ireside".data rfl (by decide),
   C4_press_type_validation.2.2.2.2 (JVal.obj [])⟩

/-- The shape of the whole document `abbrs` lookup tables (five
categories keyed by `@token`). -/
def mkAbbrs (A S V T P : List (String × JVal)) : JVal :=
  JVal.obj [("abbrs", JVal.obj
    [("authors", JVal.obj A), ("sources", JVal.obj S), ("venues", JVal.obj V),
     ("types", JVal.obj T), ("positions", JVal.obj P)])]

/-- C5: an `@`-prefixed token (author, source, venue, type, position)
absent from its abbreviation table makes item construction fail with a
missing-key Lookup Error, unrecovered. -/
theorem C5_missing_token_lookup_error :
    (∀ (A S V T P : List (String × JVal)) (tok : String) (cs : List Char),
        tok.data = '@' :: cs → assoc A tok = none →
          authors_from_json (JVal.obj [("authors", JVal.arr [JVal.str tok])])
              (mkAbbrs A S V T P)
            = Except.error (Err.keyError tok))
      ∧ (∀ (A S V T P : List (String × JVal)) (s : String),
          assoc S s = none →
            source_from_json (JVal.obj [("source", JVal.str s)]) (mkAbbrs A S V T P)
              = Except.error (Err.keyError s))
      ∧ (∀ (A S V T P : List (String × JVal)) (tok : String) (cs : List Char),
          tok.data = '@' :: cs → assoc V tok = none →
            venue_from_json (JVal.obj [("venue", JVal.str tok)]) (mkAbbrs A S V T P)
              = Except.error (Err.keyError tok))
      ∧ (∀ (A S V T P : List (String × JVal)) (tok : String) (cs : List Char),
          tok.data = '@' :: cs → assoc T tok = none →
            talk_type_from_json (JVal.obj [("type", JVal.str tok)]) (mkAbbrs A S V T P)
              = Except.error (Err.keyError tok))
      ∧ (∀ (A S V T P : List (String × JVal)) (tok : String) (cs : List Char),
          tok.data = '@' :: cs → assoc V tok = none →
            involvement_item_from_json (JVal.obj [("venue", JVal.str tok)])
                (mkAbbrs A S V T P)
              = Except.error (Err.keyError tok))
      ∧ (∀ (A S V T P : List (String × JVal)) (pos : String) (y : Int),
          assoc P pos = none →
            involvement_item_from_json
                (JVal.obj [("venue", JVal.str "Some Venue"), ("position", JVal.str pos),
                  ("year", JVal.num y)])
                (mkAbbrs A S V T P)
              = Except.error (Err.keyError pos)) := by
  refine ⟨?_, ?_, ?_, ?_, ?_, ?_⟩
  · intro A S V T P tok cs hd h
    simp [authors_from_json, authorsGo, mkAbbrs, jget, assoc, jstr, bind, Except.bind, hd, h]
  · intro A S V T P s h
    simp [source_from_json, mkAbbrs, jget, assoc, jstr, bind, Except.bind, h]
  · intro A S V T P tok cs hd h
    simp [venue_from_json, mkAbbrs, jget, assoc, jstr, bind, Except.bind, hd, h]
  · intro A S V T P tok cs hd h
    simp [talk_type_from_json, mkAbbrs, jget, assoc, jstr, bind, Except.bind, hd, h]
  · intro A S V T P tok cs hd h
    simp [involvement_item_from_json, mkAbbrs, jget, assoc, jstr, bind, Except.bind, hd, h]
  · intro A S V T P pos y h
    simp [involvement_item_from_json, mkAbbrs, jget, assoc, jstr, bind, Except.bind, h]

/-- C5 witness: `@ghost` tokens missing from each table abort
construction with the missing key. -/
theorem C5_missing_token_lookup_error_witness :
    authors_from_json (JVal.obj [("authors", JVal.arr [JVal.str "@ghost"])])
        (mkAbbrs [] [] [] [] [])
      = Except.error (Err.keyError "@ghost")
    ∧ source_from_json (JVal.obj [("source", JVal.str "@ghost")]) (mkAbbrs [] [] [] [] [])
      = Except.error (Err.keyError "@ghost")
    ∧ venue_from_json (JVal.obj [("venue", JVal.str "@ghost")]) (mkAbbrs [] [] [] [] [])
      = Except.error (Err.keyError "@ghost")
    ∧ talk_type_from_json (JVal.obj [("type", JVal.str "@ghost")]) (mkAbbrs [] [] [] [] [])
      = Except.error (Err.keyError "@ghost")
    ∧ involvement_item_from_json (JVal.obj [("venue", JVal.str "@ghost")])
        (mkAbbrs [] [] [] [] [])
      = Except.error (Err.keyError "@ghost")
    ∧ involvement_item_from_json
        (JVal.obj [("venue", JVal.str "Some Venue"), ("position", JVal.str "@chair"),
          ("year", JVal.num 2020)])
        (mkAbbrs [] [] [] [] [])
      = Except.error (Err.keyError "@chair") :=
  ⟨C5_missing_token_lookup_error.1 [] [] [] [] [] "@ghost" "ghost".data rfl rfl,
   C5_missing_token_lookup_error.2.1 [] [] [] [] [] "@ghost" rfl,
   C5_missing_token_lookup_error.2.2.1 [] [] [] [] [] "@ghost" "ghost".data rfl rfl,
   C5_missing_token_lookup_error.2.2.2.1 [] [] [] [] [] "@ghost" "ghost".data rfl rfl,
   C5_missing_token_lookup_error.2.2.2.2.1 [] [] [] [] [] "@ghost" "ghost".data rfl rfl,
   C5_missing_token_lookup_error.2.2.2.2.2 [] [] [] [] [] "@chair" 2020 rfl⟩

/-- C6 counterexample: `year_from_json` rejects an ISO-8601 date-time
string — only the sentinel `@now` is an accepted string. -/
theorem C6_counterexample :
    year_from_json 2026 (JVal.str "2021-03-04")
      = Except.error (Err.valueError "Invalid year value in json: 2021-03-04") := rfl

/-- C6 amended: a year field (`year_from_json`: Publication, Talks,
Writing, Code) accepts exactly a literal integer, returned unchanged, or
the sentinel `@now`, which resolves to the current calendar year at
construction (clock year Y yields Y); any other string is an Invalid
Value failure.  A date field (`date_from_json`: Blog, Press) is parsed by
`fromisoformat`, so it accepts exactly ISO-8601 date-time strings. -/
theorem C6_year_date_parsing :
    (∀ (Y n : Int), year_from_json Y (JVal.num n) = Except.ok n)
      ∧ (∀ (Y : Int), year_from_json Y (JVal.str "@now") = Except.ok Y)
      ∧ (∀ (Y : Int) (s : String), s ≠ "@now" →
          year_from_json Y (JVal.str s)
            = Except.error (Err.valueError ("Invalid year value in json: " ++ s)))
      ∧ (∀ (fields : List (String × JVal)) (s : String),
          assoc fields "date" = some (JVal.str s) →
            date_from_json (JVal.obj fields) = fromisoformat s)
      ∧ fromisoformat "2021-03-04" = Except.ok (DateTime.mk 2021 3 4 0 0 0)
      ∧ fromisoformat "@now" = Except.error (Err.valueError "Invalid isoformat string: @now") := by
  refine ⟨?_, ?_, ?_, ?_, rfl, rfl⟩
  · intro Y n
    rfl
  · intro Y
    rfl
  · intro Y s h
    simp [year_from_json, h]
  · intro fields s h
    simp [date_from_json, jget, assoc, bind, Except.bind, h]

/-- C6 witness: year 2020 passes through, `@now` under a 2026 clock gives
2026, and a stray string fails. -/
theorem C6_year_date_parsing_witness :
    year_from_json 2026 (JVal.num 2020) = Except.ok 2020
    ∧ year_from_json 2026 (JVal.str "@now") = Except.ok 2026
    ∧ year_from_json 2026 (JVal.str "later")
      = Except.error (Err.valueError "Invalid year value in json: later")
    ∧ date_from_json (JVal.obj [("date", JVal.str "2021-03-04")])
      = fromisoformat "2021-03-04" :=
  ⟨C6_year_date_parsing.1 2026 2020,
   C6_year_date_parsing.2.1 2026,
   C6_year_date_parsing.2.2.1 2026 "later" (by decide),
   C6_year_date_parsing.2.2.2.1 [("date", JVal.str "2021-03-04")] "2021-03-04" rfl⟩

theorem checkFiles_ok_iff (root : String) (isFile : String → Bool) :
    ∀ files : List (Option String),
      (checkFiles root isFile files = Except.ok true
        ↔ ∀ r ∈ files, ¬(is_local_file_ref r = true
            ∧ isFile (joinPath root (r.getD "")) = false)) := by
  intro files
  induction files with
  | nil => simp [checkFiles]
  | cons r rs ih =>
    unfold checkFiles
    by_cases hl : is_local_file_ref r = true
    · rw [if_pos hl]
      by_cases hf : isFile (joinPath root (r.getD "")) = true
      · rw [if_pos hf, ih]
        constructor
        · intro h x hx
          rcases List.mem_cons.mp hx with rfl | hx2
          · intro hand
            rw [hand.2] at hf
            cases hf
          · exact h x hx2
        · intro h x hx
          exact h x (by simp [hx])
      · rw [if_neg hf]
        constructor
        · intro h
          cases h
        · intro h
          exact absurd ⟨hl, by simpa using hf⟩ (h r (by simp))
    · rw [if_neg hl, ih]
      constructor
      · intro h x hx
        rcases List.mem_cons.mp hx with rfl | hx2
        · intro hand
          exact hl hand.1
        · exact h x hx2
      · intro h x hx
        exact h x (by simp [hx])

theorem checkFiles_error_iff (root : String) (isFile : String → Bool) :
    ∀ files : List (Option String),
      ((∃ e, checkFiles root isFile files = Except.error e)
        ↔ ∃ r ∈ files, is_local_file_ref r = true
            ∧ isFile (joinPath root (r.getD "")) = false) := by
  intro files
  induction files with
  | nil => simp [checkFiles]
  | cons r rs ih =>
    unfold checkFiles
    by_cases hl : is_local_file_ref r = true
    · rw [if_pos hl]
      by_cases hf : isFile (joinPath root (r.getD "")) = true
      · rw [if_pos hf, ih]
        constructor
        · rintro ⟨x, hx, hand⟩
          exact ⟨x, by simp [hx], hand⟩
        · rintro ⟨x, hx, hand⟩
          rcases List.mem_cons.mp hx with rfl | hx2
          · rw [hand.2] at hf
            cases hf
          · exact ⟨x, hx2, hand⟩
      · rw [if_neg hf]
        constructor
        · intro _
          exact ⟨r, by simp, hl, by simpa using hf⟩
        · intro _
          exact ⟨Err.fileNotFound (joinPath root (r.getD "")), rfl⟩
    · rw [if_neg hl, ih]
      constructor
      · rintro ⟨x, hx, hand⟩
        exact ⟨x, by simp [hx], hand⟩
      · rintro ⟨x, hx, hand⟩
        rcases List.mem_cons.mp hx with rfl | hx2
        · exact absurd hand.1 hl
        · exact ⟨x, hx2, hand⟩

theorem checkFiles_error_form (root : String) (isFile : String → Bool) :
    ∀ (files : List (Option String)) (e : Err),
      checkFiles root isFile files = Except.error e →
        ∃ s, some s ∈ files ∧ e = Err.fileNotFound (joinPath root s) := by
  intro files
  induction files with
  | nil => intro e h; cases h
  | cons r rs ih =>
    intro e h
    unfold checkFiles at h
    by_cases hl : is_local_file_ref r = true
    · rw [if_pos hl] at h
      by_cases hf : isFile (joinPath root (r.getD "")) = true
      · rw [if_pos hf] at h
        obtain ⟨s, hs, he⟩ := ih e h
        exact ⟨s, by simp [hs], he⟩
      · rw [if_neg hf] at h
        cases h
        match r, hl with
        | some s, _ => exact ⟨s, by simp, rfl⟩
        | none, hl0 => cases hl0
    · rw [if_neg hl] at h
      obtain ⟨s, hs, he⟩ := ih e h
      exact ⟨s, by simp [hs], he⟩

theorem is_local_some_ne_empty {s : String} (h : s ≠ "") :
    is_local_file_ref (some s) = !hasDoubleSlash s.data := by
  simp [is_local_file_ref, h]

/-- C7: for every item whose file-field values are real reference strings
(none of them the empty string), `validate` fails — with a Missing File
error naming the joined path — exactly when some file-field string value
has no `//` substring and is not a file under the root; values with `//`
(remote urls) and absent values never trigger the check, and `validate`
returns true when no file field fails. -/
theorem C7_validate_missing_file (it : Item) (root : String) (isFile : String → Bool)
    (hne : ∀ r ∈ it.possible_files, r ≠ some "") :
    ((∃ e, it.validate root isFile = Except.error e)
        ↔ ∃ s, some s ∈ it.possible_files ∧ hasDoubleSlash s.data = false
            ∧ isFile (joinPath root s) = false)
      ∧ (∀ e, it.validate root isFile = Except.error e →
          ∃ s, some s ∈ it.possible_files ∧ e = Err.fileNotFound (joinPath root s))
      ∧ (it.validate root isFile = Except.ok true
          ↔ ¬∃ s, some s ∈ it.possible_files ∧ hasDoubleSlash s.data = false
              ∧ isFile (joinPath root s) = false) := by
  have hbridge : (∃ r ∈ it.possible_files, is_local_file_ref r = true
      ∧ isFile (joinPath root (r.getD "")) = false)
      ↔ ∃ s, some s ∈ it.possible_files ∧ hasDoubleSlash s.data = false
          ∧ isFile (joinPath root s) = false := by
    constructor
    · rintro ⟨r, hr, hloc, hfile⟩
      match r with
      | none => simp [is_local_file_ref] at hloc
      | some s =>
          have hs : s ≠ "" := by
            intro hcon
            exact hne (some s) hr (by rw [hcon])
          rw [is_local_some_ne_empty hs] at hloc
          exact ⟨s, hr, by simpa using hloc, by simpa using hfile⟩
    · rintro ⟨s, hs, hds, hfile⟩
      have hsne : s ≠ "" := by
        intro hcon
        exact hne (some s) hs (by rw [hcon])
      refine ⟨some s, hs, ?_, by simpa using hfile⟩
      rw [is_local_some_ne_empty hsne, hds]
      rfl
  refine ⟨?_, ?_, ?_⟩
  · rw [show it.validate root isFile = checkFiles root isFile it.possible_files from rfl]
    rw [checkFiles_error_iff root isFile it.possible_files]
    exact hbridge
  · intro e h
    exact checkFiles_error_form root isFile it.possible_files e h
  · rw [show it.validate root isFile = checkFiles root isFile it.possible_files from rfl]
    rw [checkFiles_ok_iff root isFile it.possible_files]
    constructor
    · intro h hcon
      obtain ⟨r, hr, hand⟩ := hbridge.mpr hcon
      exact h r hr hand
    · intro h r hr hand
      exact h (hbridge.mp ⟨r, hr, hand⟩)

/-- C7 witness: a publication whose url `papers/a.pdf` is absent from the
filesystem fails with Missing File at the joined path; with the url
`https://example.com/a.pdf` (containing `//`) validate returns true even
though no file exists. -/
theorem C7_validate_missing_file_witness :
    ((∃ e, (Item.publication (PublicationItem.mk 2020 "T" (some "papers/a.pdf") [] []
        (Venue.mk "V" none) [])).validate "root" (fun _ => false) = Except.error e)
      ↔ ∃ s, some s ∈ (Item.publication (PublicationItem.mk 2020 "T" (some "papers/a.pdf")
          [] [] (Venue.mk "V" none) [])).possible_files
          ∧ hasDoubleSlash s.data = false ∧ (fun (_ : String) => false) (joinPath "root" s) = false)
    ∧ ((Item.publication (PublicationItem.mk 2020 "T" (some "https://example.com/a.pdf") [] []
        (Venue.mk "V" none) [])).validate "root" (fun _ => false) = Except.ok true
      ↔ ¬∃ s, some s ∈ (Item.publication (PublicationItem.mk 2020 "T"
          (some "https://example.com/a.pdf") [] [] (Venue.mk "V" none) [])).possible_files
          ∧ hasDoubleSlash s.data = false
          ∧ (fun (_ : String) => false) (joinPath "root" s) = false) :=
  ⟨(C7_validate_missing_file
      (Item.publication (PublicationItem.mk 2020 "T" (some "papers/a.pdf") [] []
        (Venue.mk "V" none) [])) "root" (fun _ => false)
      (by intro r hr; revert hr; simp [Item.possible_files]; rintro rfl; simp)).1,
   (C7_validate_missing_file
      (Item.publication (PublicationItem.mk 2020 "T" (some "https://example.com/a.pdf") [] []
        (Venue.mk "V" none) [])) "root" (fun _ => false)
      (by intro r hr; revert hr; simp [Item.possible_files]; rintro rfl; simp)).2.2⟩

/-- C10: `is_local_file_ref` treats an absent (`None`) or empty file-field
value as non-local, so it is skipped: an item all of whose file-field
values are absent or empty always validates true, for any root and any
filesystem — a missing optional url never raises Missing File. -/
theorem C10_none_empty_skipped :
    is_local_file_ref none = false
      ∧ is_local_file_ref (some "") = false
      ∧ (∀ (it : Item) (root : String) (isFile : String → Bool),
          (∀ r ∈ it.possible_files, r = none ∨ r = some "") →
            it.validate root isFile = Except.ok true) := by
  refine ⟨rfl, rfl, ?_⟩
  intro it root isFile h
  rw [show it.validate root isFile = checkFiles root isFile it.possible_files from rfl]
  rw [checkFiles_ok_iff root isFile it.possible_files]
  intro r hr hand
  rcases h r hr with rfl | rfl
  · simp [is_local_file_ref] at hand
  · simp [is_local_file_ref] at hand

/-- C10 witness: a publication with no url and no links validates true
even on an empty filesystem. -/
theorem C10_none_empty_skipped_witness :
    is_local_file_ref none = false
      ∧ is_local_file_ref (some "") = false
      ∧ (Item.publication (PublicationItem.mk 2020 "T" none [] []
          (Venue.mk "V" none) [])).validate "root" (fun _ => false) = Except.ok true :=
  ⟨C10_none_empty_skipped.1, C10_none_empty_skipped.2.1,
   C10_none_empty_skipped.2.2
     (Item.publication (PublicationItem.mk 2020 "T" none [] [] (Venue.mk "V" none) []))
     "root" (fun _ => false)
     (by intro r hr; revert hr; simp [Item.possible_files]; rintro rfl; simp)⟩

/-- C8 counterexample: the description is NOT escaped before insertion —
`add_desc_html` splices it verbatim into the span, so markup in a
description (here a `<b>` element) survives into the output, unlike the
escaped form. -/
theorem C8_counterexample :
    (add_desc_html "<b>x</b>" (Indenter.mk 0 [])).lines
      = [(0, "<span " ++ "class=" ++ sq ++ "description" ++ sq ++ ">"
          ++ "<b>x</b>" ++ "</span>")]
    ∧ escape "<b>x</b>" ≠ "<b>x</b>"
    ∧ lineTags ("<span " ++ "class=" ++ sq ++ "description" ++ sq ++ ">"
        ++ "<b>x</b>" ++ "</span>")
      = [HTag.open_ "span", HTag.open_ "b", HTag.close "b", HTag.close "span"] :=
  ⟨rfl, by decide, by decide⟩

/-- C8 amended: display text that is escaped before insertion — the
title, the Involvement position, the press type — can never inject markup
(its line always scans to exactly the open/close pair of the wrapping element
pair, whatever the text), and URLs are inserted unescaped as attribute
values; but the description is inserted verbatim, without escaping. -/
theorem C8_escaping :
    (∀ (title : String) (url : Option String), optNoAngle url = true →
        lineTags (title_html title url)
          = [HTag.open_ (titleTagName url), HTag.close (titleTagName url)])
      ∧ (∀ pos : String,
          lineTags (involvementTdPosition pos) = [HTag.open_ "td", HTag.close "td"])
      ∧ (∀ p : PressItem, lineTags (pressPill p) = [HTag.open_ "span", HTag.close "span"])
      ∧ (∀ (t u : String), u ≠ "" →
          title_html t (some u)
            = "<a " ++ "class=" ++ sq ++ "pub-title" ++ sq ++ " "
              ++ ("href=" ++ sq ++ u ++ sq) ++ ">" ++ escape t ++ "</a>")
      ∧ (∀ (d : String) (m : Indenter),
          (add_desc_html d m).lines
            = m.lines ++ [(m.level, "<span " ++ "class=" ++ sq ++ "description" ++ sq ++ ">"
                ++ d ++ "</span>")]) := by
  refine ⟨?_, ?_, ?_, ?_, ?_⟩
  · intro title url hu
    exact lineTags_of_scansToS (scansToS_title_html title url hu)
  · intro pos
    exact lineTags_tdPosition pos
  · intro p
    exact lineTags_of_scansToS (scansToS_pressPill p)
  · intro t u hne
    have hr : title_html t (some u)
        = (if u = "" then "<span " ++ "class=" ++ sq ++ "pub-title" ++ sq ++ ">"
            ++ escape t ++ "</span>"
          else "<a " ++ "class=" ++ sq ++ "pub-title" ++ sq ++ " " ++ hrefAttr u ++ ">"
            ++ escape t ++ "</a>") := rfl
    rw [hr, if_neg hne]
    rfl
  · intro d m
    rfl

/-- C8 witness: a hostile title cannot escape its anchor; a hostile
position cannot escape its cell; the press pill stays a span; a url is
spliced verbatim; the description is spliced verbatim. -/
theorem C8_escaping_witness :
    lineTags (title_html "<script>alert(1)</script>" (some "x.pdf"))
      = [HTag.open_ (titleTagName (some "x.pdf")), HTag.close (titleTagName (some "x.pdf"))]
    ∧ lineTags (involvementTdPosition "<i>chair</i>")
      = [HTag.open_ "td", HTag.close "td"]
    ∧ lineTags (pressPill (PressItem.mk (DateTime.mk 2020 1 2 0 0 0) "T" "u"
        (Source.mk "S" none none) "news"))
      = [HTag.open_ "span", HTag.close "span"]
    ∧ title_html "T" (some "a.pdf")
      = "<a " ++ "class=" ++ sq ++ "pub-title" ++ sq ++ " "
        ++ ("href=" ++ sq ++ "a.pdf" ++ sq) ++ ">" ++ escape "T" ++ "</a>"
    ∧ (add_desc_html "raw" (Indenter.mk 0 [])).lines
      = (Indenter.mk 0 []).lines ++ [((Indenter.mk 0 []).level,
          "<span " ++ "class=" ++ sq ++ "description" ++ sq ++ ">" ++ "raw" ++ "</span>")] :=
  ⟨C8_escaping.1 "<script>alert(1)</script>" (some "x.pdf") (by decide),
   C8_escaping.2.1 "<i>chair</i>",
   C8_escaping.2.2.1 (PressItem.mk (DateTime.mk 2020 1 2 0 0 0) "T" "u"
     (Source.mk "S" none none) "news"),
   C8_escaping.2.2.2.1 "T" "a.pdf" (by decide),
   C8_escaping.2.2.2.2 "raw" (Indenter.mk 0 [])⟩
